import Mathlib

/-!
# Verification of the Vendor-App-BE booking/availability core

Shallow embedding of the booking lifecycle and availability engine of the
rental-bike backend (controllers `bookings.controller.js`,
`bikes.controller.js`, `dashboard.controller.js`).

Conventions of the embedding:
* Timestamps are naturals counting milliseconds since the epoch; the
  server-local timezone is taken at offset zero, so the JS
  `setHours(0,0,0,0)` normalization becomes truncation to a multiple of
  `MS_PER_DAY`.
* Monetary amounts are integers.
* Database rows become entries of explicit lists inside a `DB` structure;
  prisma `findFirst` / `findMany` / `update` become `List.find?`,
  `List.filter` and id-directed `List.map`.
* Request bodies become structures; a field the controller checks for
  `undefined` is an `Option`.  Phone validation is abstracted to the
  boolean outcome `phoneValid` (no claim depends on its internals).
* Each HTTP handler becomes a pure function of (current instant, request,
  database) returning `Except ErrorCode`.
-/

namespace VendorApp

/-! ## Day arithmetic (bookings.controller.js lines 842-864) -/

def MS_PER_DAY : Nat := 24 * 60 * 60 * 1000

/-- `startOfDay`: JS `new Date(d).setHours(0,0,0,0)`. -/
def startOfDay (t : Nat) : Nat := MS_PER_DAY * (t / MS_PER_DAY)

/-- `endOfDay`: JS `setHours(23,59,59,999)`. -/
def endOfDay (t : Nat) : Nat := startOfDay t + (MS_PER_DAY - 1)

/-- `nextDay d = startOfDay d + MS_PER_DAY`. -/
def nextDay (t : Nat) : Nat := startOfDay t + MS_PER_DAY

/-- `calculateDays`: inclusive day count, minimum 1. -/
def calculateDays (s e : Nat) : Nat :=
  max 1 ((startOfDay e - startOfDay s) / MS_PER_DAY + 1)

theorem startOfDay_le (t : Nat) : startOfDay t ≤ t := by
  simpa [startOfDay, Nat.mul_comm] using Nat.div_mul_le_self t MS_PER_DAY

theorem lt_nextDay (t : Nat) : t < nextDay t := by
  have h1 : t % MS_PER_DAY < MS_PER_DAY := Nat.mod_lt _ (by decide)
  have h2 : MS_PER_DAY * (t / MS_PER_DAY) + t % MS_PER_DAY = t :=
    Nat.div_add_mod t MS_PER_DAY
  simp only [nextDay, startOfDay]
  omega

theorem startOfDay_startOfDay (t : Nat) : startOfDay (startOfDay t) = startOfDay t := by
  simp [startOfDay, Nat.mul_div_cancel_left _ (show 0 < MS_PER_DAY by decide)]

theorem nextDay_startOfDay (t : Nat) : nextDay (startOfDay t) = nextDay t := by
  simp [nextDay, startOfDay_startOfDay]

/-! ## Data model -/

inductive BookingStatus where
  | UPCOMING | ACTIVE | RETURNED | CANCELLED
deriving DecidableEq

inductive BikeStatus where
  | AVAILABLE | RENTED | MAINTENANCE
deriving DecidableEq

inductive FuelLevel where
  | FULL | THREE_QUARTER | HALF | QUARTER | LOW
deriving DecidableEq

structure Bike where
  id : Nat
  organizationId : Nat
  dailyRate : Int
  status : BikeStatus
  isDeleted : Bool
deriving DecidableEq

structure Booking where
  id : Nat
  organizationId : Nat
  bikeId : Nat
  customerName : String
  startDate : Nat
  endDate : Nat
  totalAmount : Int
  paidAmount : Int
  status : BookingStatus
  isDeleted : Bool
  deliveredAt : Option Nat
  returnedAt : Option Nat
deriving DecidableEq

structure DB where
  bikes : List Bike
  bookings : List Booking
  nextId : Nat
deriving DecidableEq

end VendorApp

deriving instance DecidableEq for Except

namespace VendorApp

/-! ## Database helpers -/

/-- prisma `bike.findFirst({id, organizationId, isDeleted:false})`. -/
def findBike (db : DB) (bikeId orgId : Nat) : Option Bike :=
  db.bikes.find? fun bk =>
    decide (bk.id = bikeId ∧ bk.organizationId = orgId ∧ bk.isDeleted = false)

/-- prisma `booking.findFirst({id, organizationId, isDeleted:false})`. -/
def findBooking (db : DB) (bookingId orgId : Nat) : Option Booking :=
  db.bookings.find? fun b =>
    decide (b.id = bookingId ∧ b.organizationId = orgId ∧ b.isDeleted = false)

/-- prisma `bike.update({where:{id}, data:{status}})` (no-op when the id
does not resolve, mirroring the swallowed update errors). -/
def setBikeStatus (db : DB) (bikeId : Nat) (st : BikeStatus) : DB :=
  { db with bikes := db.bikes.map fun bk =>
      if bk.id = bikeId then { bk with status := st } else bk }

/-- prisma `booking.update({where:{id}, data})`, as an id-directed map. -/
def mapBooking (db : DB) (bookingId : Nat) (f : Booking → Booking) : DB :=
  { db with bookings := db.bookings.map fun b =>
      if b.id = bookingId then f b else b }

/-! ## Error codes (utils/response.js ERROR_CODES) -/

inductive ErrorCode where
  | MISSING_FIELDS | INVALID_PHONE | PAST_DATE | INVALID_DATE_RANGE
  | NOT_FOUND | BIKE_IN_MAINTENANCE | BOOKING_OVERLAP
  | ALREADY_DELIVERED | INVALID_STATUS | VALIDATION_ERROR | BIKE_RENTED
deriving DecidableEq

/-! ## Bike status reconciliation

Three iterations of `autoFixBikeStatus` exist in the repository:
* `autoFixBikeStatus`    — bookings.controller.js lines 871-908 (final);
* `autoFixBikeStatusDash` — dashboard.controller.js lines 166-208;
* `autoFixBikeStatusBikes` — bikes.controller.js lines 6-35 (superseded).
-/

/-- A booking currently occupying the bike per bookings.controller.js
lines 878-887: non-terminal, not soft-deleted, started on-or-before now;
the end date deliberately does not matter. -/
def occupiesNow (bikeId orgId now : Nat) (b : Booking) : Prop :=
  b.bikeId = bikeId ∧ b.organizationId = orgId ∧
  (b.status = .ACTIVE ∨ b.status = .UPCOMING) ∧ b.isDeleted = false ∧
  b.startDate ≤ now

instance (bikeId orgId now : Nat) (b : Booking) :
    Decidable (occupiesNow bikeId orgId now b) := by
  unfold occupiesNow; infer_instance

/-- bookings.controller.js lines 871-908: writes RENTED when an occupying
booking exists and AVAILABLE otherwise, unconditionally, and returns the
derived status. -/
def autoFixBikeStatus (now bikeId orgId : Nat) (db : DB) : DB × BikeStatus :=
  match db.bookings.find? (fun b => decide (occupiesNow bikeId orgId now b)) with
  | some _ => (setBikeStatus db bikeId .RENTED, .RENTED)
  | none => (setBikeStatus db bikeId .AVAILABLE, .AVAILABLE)

/-- dashboard.controller.js lines 166-208: same occupancy rule, but reads
the bike first, returns untouched when the bike is missing, deleted or in
MAINTENANCE, and only writes when the stored status actually differs. -/
def autoFixBikeStatusDash (now bikeId orgId : Nat) (db : DB) : DB :=
  match db.bikes.find? (fun bk => decide (bk.id = bikeId)) with
  | none => db
  | some bike =>
    if bike.isDeleted then db
    else if bike.status = .MAINTENANCE then db
    else
      match db.bookings.find? (fun b => decide (occupiesNow bikeId orgId now b)) with
      | some _ =>
        if bike.status ≠ .RENTED then setBikeStatus db bikeId .RENTED else db
      | none =>
        if bike.status = .RENTED then setBikeStatus db bikeId .AVAILABLE else db

/-- bikes.controller.js lines 6-35 (superseded iteration): looks for
ACTIVE/UPCOMING bookings with `endDate >= now` — no soft-delete filter and
no start-date condition — and returns the string `"R"` when rented. -/
def autoFixBikeStatusBikes (now bikeId orgId : Nat) (db : DB) : DB × String :=
  let active := db.bookings.filter fun b =>
    decide (b.bikeId = bikeId ∧ b.organizationId = orgId ∧
      (b.status = .ACTIVE ∨ b.status = .UPCOMING) ∧ now ≤ b.endDate)
  if active.isEmpty then (setBikeStatus db bikeId .AVAILABLE, "AVAILABLE")
  else (setBikeStatus db bikeId .RENTED, "R")

/-! ## Overlap detection (bookings.controller.js lines 1210-1224, 1384-1398) -/

/-- The prisma overlap query condition: an existing booking B for the same
bike and organization, status ACTIVE/UPCOMING, not soft-deleted, not the
excluded booking (update case), with `B.startDate <= candidate.endDate`
and `B.endDate >= nextDay(candidate.startDate)`. -/
def overlapConflict (bikeId orgId candStart candEnd : Nat) (excludeId : Option Nat)
    (b : Booking) : Prop :=
  excludeId ≠ some b.id ∧
  b.bikeId = bikeId ∧ b.organizationId = orgId ∧
  (b.status = .ACTIVE ∨ b.status = .UPCOMING) ∧ b.isDeleted = false ∧
  b.startDate ≤ candEnd ∧ nextDay candStart ≤ b.endDate

instance (bikeId orgId candStart candEnd : Nat) (excludeId : Option Nat) (b : Booking) :
    Decidable (overlapConflict bikeId orgId candStart candEnd excludeId b) := by
  unfold overlapConflict; infer_instance

/-- `prisma.booking.findFirst` with the overlap condition. -/
def findOverlap (bikeId orgId candStart candEnd : Nat) (excludeId : Option Nat)
    (l : List Booking) : Option Booking :=
  l.find? fun b => decide (overlapConflict bikeId orgId candStart candEnd excludeId b)

/-! ## createBooking (bookings.controller.js lines 1130-1300) -/

structure CreateReq where
  customerName : String
  phoneValid : Bool
  bikeId : Nat
  rawStart : Nat
  rawEnd : Nat
  totalAmount : Option Int
  paidAmount : Option Int
deriving DecidableEq

/-- The booking row inserted by createBooking (lines 1267-1283). -/
def mkNewBooking (now orgId : Nat) (req : CreateReq) (bike : Bike) (nid : Nat) : Booking :=
  { id := nid, organizationId := orgId, bikeId := req.bikeId,
    customerName := req.customerName,
    startDate := startOfDay req.rawStart, endDate := endOfDay req.rawEnd,
    totalAmount := req.totalAmount.getD
      ((calculateDays (startOfDay req.rawStart) (endOfDay req.rawEnd) : Int) * bike.dailyRate),
    paidAmount := req.paidAmount.getD 0,
    status := if startOfDay req.rawStart ≤ now then .ACTIVE else .UPCOMING,
    isDeleted := false, deliveredAt := none, returnedAt := none }

/-- `prisma.booking.create`: append the row and advance the id counter. -/
def insertBooking (db : DB) (nb : Booking) : DB :=
  { db with bookings := db.bookings ++ [nb], nextId := db.nextId + 1 }

/-- The database produced by a successful createBooking: reconcile, insert,
then either force RENTED (booking already started) or reconcile again. -/
def createdDB (now orgId : Nat) (req : CreateReq) (bike : Bike) (db : DB) : DB :=
  let db1 := (autoFixBikeStatus now req.bikeId orgId db).1
  let db2 := insertBooking db1 (mkNewBooking now orgId req bike db1.nextId)
  if startOfDay req.rawStart ≤ now then setBikeStatus db2 req.bikeId .RENTED
  else (autoFixBikeStatus now req.bikeId orgId db2).1

def createBooking (now orgId : Nat) (req : CreateReq) (db : DB) :
    Except ErrorCode (DB × Booking) :=
  if req.customerName = "" then .error .MISSING_FIELDS
  else if req.phoneValid = false then .error .INVALID_PHONE
  else if startOfDay req.rawStart < startOfDay now then .error .PAST_DATE
  else if endOfDay req.rawEnd < startOfDay req.rawStart then .error .INVALID_DATE_RANGE
  else
    match findBike db req.bikeId orgId with
    | none => .error .NOT_FOUND
    | some bike =>
      if bike.status = .MAINTENANCE then .error .BIKE_IN_MAINTENANCE
      else
        match findOverlap req.bikeId orgId (startOfDay req.rawStart) (endOfDay req.rawEnd)
            none ((autoFixBikeStatus now req.bikeId orgId db).1).bookings with
        | some _ => .error .BOOKING_OVERLAP
        | none =>
          .ok (createdDB now orgId req bike db,
            mkNewBooking now orgId req bike
              ((autoFixBikeStatus now req.bikeId orgId db).1).nextId)

/-! ## updateBooking (bookings.controller.js lines 1303-1443) -/

structure UpdateReq where
  customerName : Option String
  phoneValid : Option Bool
  rawStart : Option Nat
  rawEnd : Option Nat
  totalAmount : Option Int
  paidAmount : Option Int
deriving DecidableEq

/-- The spread-merge update payload (lines 1419-1433): each field written
only when provided; a provided-but-empty customer name is falsy in JS and
therefore not written. -/
def applyUpdate (db : DB) (bookingId : Nat) (req : UpdateReq) (newStart newEnd : Nat) : DB :=
  mapBooking db bookingId fun b =>
    { b with
      customerName := match req.customerName with
        | some c => if c = "" then b.customerName else c
        | none => b.customerName
      startDate := if req.rawStart.isSome then newStart else b.startDate
      endDate := if req.rawEnd.isSome then newEnd else b.endDate
      totalAmount := req.totalAmount.getD b.totalAmount
      paidAmount := req.paidAmount.getD b.paidAmount }

/-- The proposed (normalized) start date of an update: the provided value
or, when absent, the stored one. -/
def proposedStart (req : UpdateReq) (existing : Booking) : Nat :=
  startOfDay (req.rawStart.getD existing.startDate)

def proposedEnd (req : UpdateReq) (existing : Booking) : Nat :=
  endOfDay (req.rawEnd.getD existing.endDate)

/-- Lines 1352-1354: dates "actually changed". -/
def datesChanged (req : UpdateReq) (existing : Booking) : Prop :=
  (req.rawStart.isSome = true ∧ proposedStart req existing ≠ startOfDay existing.startDate) ∨
  (req.rawEnd.isSome = true ∧ proposedEnd req existing ≠ endOfDay existing.endDate)

instance (req : UpdateReq) (existing : Booking) : Decidable (datesChanged req existing) := by
  unfold datesChanged; infer_instance

def updateBooking (now orgId bookingId : Nat) (req : UpdateReq) (db : DB) :
    Except ErrorCode DB :=
  match findBooking db bookingId orgId with
  | none => .error .NOT_FOUND
  | some existing =>
    if req.phoneValid = some false then .error .INVALID_PHONE
    else if datesChanged req existing then
      if req.rawStart.isSome = true ∧
          proposedStart req existing ≠ startOfDay existing.startDate ∧
          proposedStart req existing < startOfDay now then .error .PAST_DATE
      else if proposedEnd req existing < proposedStart req existing then
        .error .INVALID_DATE_RANGE
      else
        match findOverlap existing.bikeId orgId (proposedStart req existing)
            (proposedEnd req existing) (some bookingId) db.bookings with
        | some _ => .error .BOOKING_OVERLAP
        | none =>
          .ok (autoFixBikeStatus now existing.bikeId orgId
            (applyUpdate db bookingId req (proposedStart req existing)
              (proposedEnd req existing))).1
    else
      .ok (autoFixBikeStatus now existing.bikeId orgId
        (applyUpdate db bookingId req existing.startDate existing.endDate)).1

/-! ## deliverBike (bookings.controller.js lines 1446-1554) -/

structure DeliverReq where
  helmetsGiven : Option Int
  fuelLevel : Option FuelLevel
  odometerReading : Option Int
deriving DecidableEq

def deliverBike (now orgId bookingId : Nat) (req : DeliverReq) (db : DB) :
    Except ErrorCode DB :=
  if req.helmetsGiven.isNone ∨ req.fuelLevel.isNone ∨ req.odometerReading.isNone then
    .error .MISSING_FIELDS
  else
    match findBooking db bookingId orgId with
    | none => .error .NOT_FOUND
    | some booking =>
      if booking.deliveredAt.isSome then .error .ALREADY_DELIVERED
      else if booking.status = .RETURNED ∨ booking.status = .CANCELLED then
        .error .INVALID_STATUS
      else
        let db1 := mapBooking db bookingId fun b =>
          { b with status := .ACTIVE, deliveredAt := some now }
        .ok (setBikeStatus db1 booking.bikeId .RENTED)

/-! ## markReturned (bookings.controller.js lines 1557-1695) -/

structure ReturnReq where
  paidAmount : Option Int
  finesAmount : Option Int
  fuelCharge : Option Int
  damageCharge : Option Int
  extraKmsCharge : Option Int
  lateFee : Option Int
deriving DecidableEq

structure Settlement where
  overdueDays : Nat
  overdueFee : Int
  fines : Int
  fuelCharge : Int
  damageCharge : Int
  extraKmsCharge : Int
  lateFeeApplied : Int
  originalTotal : Int
  newTotal : Int
  newPaid : Int
deriving DecidableEq

/-- `booking.bike?.dailyRate || 0` through the prisma `include: {bike}`
relation (by bike id, no soft-delete filter). -/
def rateOf (db : DB) (bikeId : Nat) : Int :=
  match db.bikes.find? (fun bk => decide (bk.id = bikeId)) with
  | some bk => bk.dailyRate
  | none => 0

/-- The settlement arithmetic of markReturned (lines 1586-1618).  A charge
given as `0` is falsy in JS, so `lateFee ? Number(lateFee) : overdueFee`
falls back to the computed overdue fee for both an absent and a zero
override. -/
def settleReturn (now : Nat) (req : ReturnReq) (booking : Booking) (dailyRate : Int) :
    Settlement :=
  let originalEndDay := startOfDay booking.endDate
  let returnDay := startOfDay now
  let overdueDays := if originalEndDay < returnDay
    then (returnDay - originalEndDay) / MS_PER_DAY else 0
  let overdueFee : Int := if 0 < overdueDays then (overdueDays : Int) * dailyRate else 0
  let fines := req.finesAmount.getD 0
  let fuelAmt := req.fuelCharge.getD 0
  let damageAmt := req.damageCharge.getD 0
  let extraAmt := req.extraKmsCharge.getD 0
  let lateAmt := match req.lateFee with
    | some v => if v = 0 then overdueFee else v
    | none => overdueFee
  let originalTotal := booking.totalAmount
  { overdueDays := overdueDays
    overdueFee := overdueFee
    fines := fines
    fuelCharge := fuelAmt
    damageCharge := damageAmt
    extraKmsCharge := extraAmt
    lateFeeApplied := lateAmt
    originalTotal := originalTotal
    newTotal := originalTotal + fuelAmt + damageAmt + extraAmt + lateAmt + fines
    newPaid := booking.paidAmount + req.paidAmount.getD 0 }

/-- markReturned: the only precondition is that the booking resolves in
the organization scope; the stored booking is then rewritten to RETURNED
with `endDate := now` and the settlement totals. -/
def markReturned (now orgId bookingId : Nat) (req : ReturnReq) (db : DB) :
    Except ErrorCode (DB × Settlement) :=
  match findBooking db bookingId orgId with
  | none => .error .NOT_FOUND
  | some booking =>
    let s := settleReturn now req booking (rateOf db booking.bikeId)
    let db1 := mapBooking db bookingId fun b =>
      { b with
        status := .RETURNED
        endDate := now
        totalAmount := s.newTotal
        paidAmount := s.newPaid
        returnedAt := some now }
    .ok ((autoFixBikeStatus now booking.bikeId orgId db1).1, s)

/-! ## bulkMarkReturned (bookings.controller.js lines 1698-1759) -/

def bulkStep (now orgId : Nat) (acc : DB × List Nat × List (Nat × String)) (bid : Nat) :
    DB × List Nat × List (Nat × String) :=
  let (db, oks, errs) := acc
  match findBooking db bid orgId with
  | none => (db, oks, errs ++ [(bid, "Booking not found")])
  | some booking =>
    if booking.status = .RETURNED then
      (db, oks, errs ++ [(bid, "Booking already returned")])
    else
      let db1 := mapBooking db bid fun b => { b with status := .RETURNED, endDate := now }
      ((autoFixBikeStatus now booking.bikeId orgId db1).1, oks ++ [bid], errs)

def bulkMarkReturned (now orgId : Nat) (ids : List Nat) (db : DB) :
    DB × List Nat × List (Nat × String) :=
  ids.foldl (bulkStep now orgId) (db, [], [])

/-! ## deleteBooking (bookings.controller.js lines 1762-1791) -/

def deleteBooking (now orgId bookingId : Nat) (db : DB) : Except ErrorCode DB :=
  match findBooking db bookingId orgId with
  | none => .error .NOT_FOUND
  | some booking =>
    let db1 := mapBooking db bookingId fun b => { b with isDeleted := true }
    .ok (autoFixBikeStatus now booking.bikeId orgId db1).1

/-! ## toggleBikeMaintenance (bikes.controller.js lines 286-320) -/

def toggleBikeMaintenance (orgId bikeId : Nat) (db : DB) :
    Except ErrorCode (DB × BikeStatus) :=
  match db.bikes.find? (fun bk => decide (bk.id = bikeId)) with
  | none => .error .NOT_FOUND
  | some bike =>
    if bike.organizationId ≠ orgId then .error .NOT_FOUND
    else if bike.status = .RENTED then .error .BIKE_RENTED
    else
      let ns := if bike.status = .MAINTENANCE then BikeStatus.AVAILABLE
                else BikeStatus.MAINTENANCE
      .ok (setBikeStatus db bikeId ns, ns)

/-! ## Availability projection

Two iterations of `computeAvailability` exist in bookings.controller.js:
the final day-walk version at lines 917-1022 (`computeAvailability`) and
the superseded chain-merge version at lines 89-176
(`computeAvailabilityMerged`).
-/

structure Availability where
  isAvailableNow : Bool
  nextAvailableDate : Option Nat
  currentBookingId : Option Nat
  returnInDays : Nat
  blockingIds : List Nat
deriving DecidableEq

/-- A booking relevant to the availability query: same bike and
organization, ACTIVE/UPCOMING, not soft-deleted, ending today or later. -/
def availRelevant (bikeId orgId todayStart : Nat) (b : Booking) : Prop :=
  b.bikeId = bikeId ∧ b.organizationId = orgId ∧
  (b.status = .ACTIVE ∨ b.status = .UPCOMING) ∧ b.isDeleted = false ∧
  todayStart ≤ b.endDate

instance (bikeId orgId todayStart : Nat) (b : Booking) :
    Decidable (availRelevant bikeId orgId todayStart b) := by
  unfold availRelevant; infer_instance

/-- `orderBy: { startDate: "asc" }`, as an insertion sort. -/
def insertByStart (b : Booking) : List Booking → List Booking
  | [] => [b]
  | x :: xs => if b.startDate < x.startDate then b :: x :: xs else x :: insertByStart b xs

def sortByStart : List Booking → List Booking
  | [] => []
  | x :: xs => insertByStart x (sortByStart xs)

/-- The day-walk of lines 972-995: starting from the current booking's end
day, repeatedly absorb any other booking that starts on-or-before the
check date and ends strictly after it, up to 365 iterations. -/
def findGapLoop (currentId : Nat) (bs : List Booking) :
    Nat → Nat → List Nat → Option Nat × List Nat
  | 0, _, acc => (none, acc)
  | fuel + 1, checkDate, acc =>
    match bs.find? (fun b => decide (b.id ≠ currentId ∧
        startOfDay b.startDate ≤ checkDate ∧ checkDate < startOfDay b.endDate)) with
    | some c => findGapLoop currentId bs fuel (startOfDay c.endDate) (acc ++ [c.id])
    | none => (some checkDate, acc)

/-- Final iteration (lines 917-1022).  The walk starts at
`startOfDay(current.endDate)` — same-day handover, the bike is available
from the end day itself. -/
def computeAvailability (now bikeId orgId : Nat) (db : DB) : Availability :=
  let todayStart := startOfDay now
  let bookings := sortByStart (db.bookings.filter
    fun b => decide (availRelevant bikeId orgId todayStart b))
  match bookings.find? (fun b => decide (startOfDay b.startDate ≤ now ∧
      now ≤ endOfDay b.endDate)) with
  | none =>
    { isAvailableNow := true, nextAvailableDate := none, currentBookingId := none,
      returnInDays := 0, blockingIds := [] }
  | some current =>
    let r := findGapLoop current.id bookings 365 (startOfDay current.endDate) [current.id]
    let rid := match r.1 with
      | some d => max 1 ((d - todayStart) / MS_PER_DAY)
      | none => 0
    { isAvailableNow := false, nextAvailableDate := r.1,
      currentBookingId := some current.id, returnInDays := rid, blockingIds := r.2 }

/-- A merged blocking chain of the superseded iteration: normalized start,
normalized (end-of-day) stop, member booking ids. -/
structure Chain where
  start : Nat
  stop : Nat
  ids : List Nat
deriving DecidableEq

/-- Lines 124-140: fold each normalized range into the list of chains,
extending the last chain when overlapping or contiguous (within 1 ms). -/
def mergeStep (acc : List Chain) (b : Booking) : List Chain :=
  let s := startOfDay b.startDate
  let e := endOfDay b.endDate
  match acc.getLast? with
  | none => [⟨s, e, [b.id]⟩]
  | some last =>
    if s ≤ last.stop + 1 then
      acc.dropLast ++ [⟨last.start, max last.stop e, last.ids ++ [b.id]⟩]
    else acc ++ [⟨s, e, [b.id]⟩]

/-- Superseded iteration (lines 89-176): merge contiguous bookings into
chains and report `nextDay(chain end)` — no same-day handover in the
projection. -/
def computeAvailabilityMerged (now bikeId orgId : Nat) (db : DB) : Availability :=
  let bookings := sortByStart (db.bookings.filter
    fun b => decide (availRelevant bikeId orgId (startOfDay now) b))
  if bookings.isEmpty then
    { isAvailableNow := true, nextAvailableDate := none, currentBookingId := none,
      returnInDays := 0, blockingIds := [] }
  else
    let merged := bookings.foldl mergeStep []
    let chosen := match merged.find? (fun c => decide (c.start ≤ now ∧ now ≤ c.stop)) with
      | some c => c
      | none => merged.headD ⟨0, 0, []⟩
    let current := bookings.find? (fun b => decide (startOfDay b.startDate ≤ now ∧
        now ≤ endOfDay b.endDate))
    let nextAvail := if now < chosen.stop then some (nextDay chosen.stop) else none
    let rid := match nextAvail with
      | some d => (startOfDay d - startOfDay now) / MS_PER_DAY
      | none => 0
    { isAvailableNow := current.isNone, nextAvailableDate := nextAvail,
      currentBookingId := current.map Booking.id, returnInDays := rid,
      blockingIds := chosen.ids }

/-! ## The core operations as a state machine -/

inductive Op where
  | create (now orgId : Nat) (req : CreateReq)
  | update (now orgId bookingId : Nat) (req : UpdateReq)
  | deliver (now orgId bookingId : Nat) (req : DeliverReq)
  | doReturn (now orgId bookingId : Nat) (req : ReturnReq)
  | remove (now orgId bookingId : Nat)

/-- Apply one operation; a rejected request leaves the store unchanged
(each handler validates before its first write). -/
def applyOp (db : DB) : Op → DB
  | .create now orgId req =>
    match createBooking now orgId req db with
    | .ok (db', _) => db'
    | .error _ => db
  | .update now orgId bookingId req =>
    match updateBooking now orgId bookingId req db with
    | .ok db' => db'
    | .error _ => db
  | .deliver now orgId bookingId req =>
    match deliverBike now orgId bookingId req db with
    | .ok db' => db'
    | .error _ => db
  | .doReturn now orgId bookingId req =>
    match markReturned now orgId bookingId req db with
    | .ok (db', _) => db'
    | .error _ => db
  | .remove now orgId bookingId =>
    match deleteBooking now orgId bookingId db with
    | .ok db' => db'
    | .error _ => db

/-- States reachable from an initial bike inventory and an empty booking
set through the five core operations. -/
inductive Reachable (bikes0 : List Bike) : DB → Prop where
  | init : Reachable bikes0 ⟨bikes0, [], 0⟩
  | step (op : Op) {db : DB} : Reachable bikes0 db → Reachable bikes0 (applyOp db op)

/-! ## The no-overlap invariant (claim C1) -/

/-- A booking that counts for the overlap invariant: status UPCOMING or
ACTIVE and not soft-deleted. -/
def relevant (b : Booking) : Prop :=
  (b.status = .UPCOMING ∨ b.status = .ACTIVE) ∧ b.isDeleted = false

instance (b : Booking) : Decidable (relevant b) := by
  unfold relevant; infer_instance

/-- Two date ranges overlap on at most a single shared boundary day. -/
def compat (a b : Booking) : Prop :=
  a.endDate < nextDay b.startDate ∨ b.endDate < nextDay a.startDate

/-- The pairwise invariant obligation for two bookings. -/
def okPair (a b : Booking) : Prop :=
  a.bikeId = b.bikeId → relevant a → relevant b → compat a b

theorem compat_symm {a b : Booking} (h : compat a b) : compat b a := h.symm

theorem okPair_symm : Symmetric okPair := by
  intro a b h hbike hra hrb
  exact compat_symm (h hbike.symm hrb hra)

/-- The global invariant maintained by the operation state machine. -/
structure Inv (db : DB) : Prop where
  bikeNodup : (db.bikes.map Bike.id).Nodup
  linked : ∀ b ∈ db.bookings, ∃ bk ∈ db.bikes,
    bk.id = b.bikeId ∧ bk.organizationId = b.organizationId
  idNodup : (db.bookings.map Booking.id).Nodup
  idLt : ∀ b ∈ db.bookings, b.id < db.nextId
  pair : db.bookings.Pairwise okPair

theorem setBikeStatus_bookings (db : DB) (bikeId : Nat) (st : BikeStatus) :
    (setBikeStatus db bikeId st).bookings = db.bookings := rfl

theorem setBikeStatus_nextId (db : DB) (bikeId : Nat) (st : BikeStatus) :
    (setBikeStatus db bikeId st).nextId = db.nextId := rfl

theorem inv_setBikeStatus {db : DB} (hInv : Inv db) (bikeId : Nat) (st : BikeStatus) :
    Inv (setBikeStatus db bikeId st) := by
  constructor
  · have : (setBikeStatus db bikeId st).bikes.map Bike.id = db.bikes.map Bike.id := by
      simp only [setBikeStatus, List.map_map]
      refine List.map_congr_left fun bk _ => ?_
      by_cases h : bk.id = bikeId <;> simp [h]
    rw [this]; exact hInv.bikeNodup
  · intro b hb
    obtain ⟨bk, hmem, hid, horg⟩ := hInv.linked b hb
    refine ⟨if bk.id = bikeId then { bk with status := st } else bk, ?_, ?_, ?_⟩
    · exact List.mem_map.2 ⟨bk, hmem, rfl⟩
    · by_cases h : bk.id = bikeId
      · rw [if_pos h]; exact hid
      · rw [if_neg h]; exact hid
    · by_cases h : bk.id = bikeId
      · rw [if_pos h]; exact horg
      · rw [if_neg h]; exact horg
  · exact hInv.idNodup
  · exact hInv.idLt
  · exact hInv.pair

theorem autoFix_bookings (now bikeId orgId : Nat) (db : DB) :
    ((autoFixBikeStatus now bikeId orgId db).1).bookings = db.bookings := by
  unfold autoFixBikeStatus
  cases db.bookings.find? (fun b => decide (occupiesNow bikeId orgId now b)) <;> rfl

theorem autoFix_nextId (now bikeId orgId : Nat) (db : DB) :
    ((autoFixBikeStatus now bikeId orgId db).1).nextId = db.nextId := by
  unfold autoFixBikeStatus
  cases db.bookings.find? (fun b => decide (occupiesNow bikeId orgId now b)) <;> rfl

theorem inv_autoFix {db : DB} (hInv : Inv db) (now bikeId orgId : Nat) :
    Inv ((autoFixBikeStatus now bikeId orgId db).1) := by
  unfold autoFixBikeStatus
  cases db.bookings.find? (fun b => decide (occupiesNow bikeId orgId now b)) <;>
    exact inv_setBikeStatus hInv _ _

theorem findBooking_some {db : DB} {bid orgId : Nat} {b : Booking}
    (h : findBooking db bid orgId = some b) :
    b ∈ db.bookings ∧ b.id = bid ∧ b.organizationId = orgId ∧ b.isDeleted = false := by
  unfold findBooking at h
  have hmem := List.mem_of_find?_eq_some h
  have hp := List.find?_some h
  rw [decide_eq_true_eq] at hp
  exact ⟨hmem, hp.1, hp.2.1, hp.2.2⟩

theorem findBike_some {db : DB} {bikeId orgId : Nat} {bk : Bike}
    (h : findBike db bikeId orgId = some bk) :
    bk ∈ db.bikes ∧ bk.id = bikeId ∧ bk.organizationId = orgId ∧ bk.isDeleted = false := by
  unfold findBike at h
  have hmem := List.mem_of_find?_eq_some h
  have hp := List.find?_some h
  rw [decide_eq_true_eq] at hp
  exact ⟨hmem, hp.1, hp.2.1, hp.2.2⟩

theorem findOverlap_none {bikeId orgId candStart candEnd : Nat} {excludeId : Option Nat}
    {l : List Booking} (h : findOverlap bikeId orgId candStart candEnd excludeId l = none) :
    ∀ b ∈ l, ¬ overlapConflict bikeId orgId candStart candEnd excludeId b := by
  intro b hb
  have := List.find?_eq_none.1 h b hb
  simpa using this

theorem eq_of_id_eq {l : List Booking} (hnd : (l.map Booking.id).Nodup)
    {a b : Booking} (ha : a ∈ l) (hb : b ∈ l) (hid : a.id = b.id) : a = b :=
  List.inj_on_of_nodup_map hnd ha hb hid

/-- Updating the booking with id `bid` through `u` keeps the pairwise
invariant if the updated booking is compatible with every other one. -/
theorem pairwise_update {l : List Booking} {bid : Nat} {u : Booking → Booking}
    (hpair : l.Pairwise okPair)
    (hnd : (l.map Booking.id).Nodup)
    (hok : ∀ b ∈ l, b.id = bid → ∀ c ∈ l, c.id ≠ bid →
      okPair (u b) c ∧ okPair c (u b)) :
    (l.map fun b => if b.id = bid then u b else b).Pairwise okPair := by
  induction l with
  | nil => simp
  | cons x xs ih =>
    rw [List.map_cons, List.pairwise_cons]
    obtain ⟨hx, hxs⟩ := List.pairwise_cons.1 hpair
    rw [List.map_cons, List.nodup_cons] at hnd
    constructor
    · intro y hy
      obtain ⟨c, hc, rfl⟩ := List.mem_map.1 hy
      by_cases hxb : x.id = bid
      · have hcid : c.id ≠ bid := by
          intro hceq
          exact hnd.1 (List.mem_map.2 ⟨c, hc, by rw [hceq, hxb]⟩)
        rw [if_pos hxb, if_neg hcid]
        exact (hok x (List.mem_cons_self x xs) hxb c (List.mem_cons_of_mem x hc) hcid).1
      · rw [if_neg hxb]
        by_cases hcb : c.id = bid
        · rw [if_pos hcb]
          exact (hok c (List.mem_cons_of_mem x hc) hcb x
            (List.mem_cons_self x xs) hxb).2
        · rw [if_neg hcb]; exact hx c hc
    · exact ih hxs hnd.2 fun b hb hbeq c hc hcne =>
        hok b (List.mem_cons_of_mem x hb) hbeq c (List.mem_cons_of_mem x hc) hcne

theorem mapBooking_nextId (db : DB) (bid : Nat) (u : Booking → Booking) :
    (mapBooking db bid u).nextId = db.nextId := rfl

theorem inv_mapBooking {db : DB} (hInv : Inv db) (bid : Nat) (u : Booking → Booking)
    (hid : ∀ b, (u b).id = b.id)
    (hbike : ∀ b, (u b).bikeId = b.bikeId)
    (horg : ∀ b, (u b).organizationId = b.organizationId)
    (hok : ∀ b ∈ db.bookings, b.id = bid → ∀ c ∈ db.bookings, c.id ≠ bid →
      okPair (u b) c ∧ okPair c (u b)) :
    Inv (mapBooking db bid u) := by
  constructor
  · exact hInv.bikeNodup
  · intro b hb
    obtain ⟨c, hc, rfl⟩ := List.mem_map.1 hb
    obtain ⟨bk, hbk, hbkid, hbkorg⟩ := hInv.linked c hc
    by_cases h : c.id = bid
    · rw [if_pos h]
      exact ⟨bk, hbk, by rw [hbike]; exact hbkid, by rw [horg]; exact hbkorg⟩
    · rw [if_neg h]; exact ⟨bk, hbk, hbkid, hbkorg⟩
  · have heq : (mapBooking db bid u).bookings.map Booking.id
        = db.bookings.map Booking.id := by
      simp only [mapBooking, List.map_map]
      refine List.map_congr_left fun b _ => ?_
      simp only [Function.comp_apply]
      by_cases h : b.id = bid
      · rw [if_pos h]; exact hid b
      · rw [if_neg h]
    rw [heq]; exact hInv.idNodup
  · intro b hb
    obtain ⟨c, hc, rfl⟩ := List.mem_map.1 hb
    have hlt := hInv.idLt c hc
    by_cases h : c.id = bid
    · rw [if_pos h]
      rw [mapBooking_nextId]
      rw [hid]; exact hlt
    · rw [if_neg h]
      rw [mapBooking_nextId]; exact hlt
  · exact pairwise_update hInv.pair hInv.idNodup hok

theorem le_endOfDay (t : Nat) : t ≤ endOfDay t := by
  have h1 : t % MS_PER_DAY < MS_PER_DAY := Nat.mod_lt _ (by decide)
  have h2 : MS_PER_DAY * (t / MS_PER_DAY) + t % MS_PER_DAY = t :=
    Nat.div_add_mod t MS_PER_DAY
  simp only [endOfDay, startOfDay]
  omega

theorem not_relevant_of_returned {b : Booking} (h : b.status = .RETURNED) :
    ¬ relevant b := by
  intro hr
  rcases hr.1 with h1 | h1 <;> rw [h] at h1 <;> cases h1

theorem not_relevant_of_deleted {b : Booking} (h : b.isDeleted = true) :
    ¬ relevant b := by
  intro hr
  rw [hr.2] at h
  cases h

theorem okPair_of_not_rel_left {a b : Booking} (h : ¬ relevant a) : okPair a b :=
  fun _ hra _ => absurd hra h

theorem okPair_of_not_rel_right {a b : Booking} (h : ¬ relevant b) : okPair a b :=
  fun _ _ hrb => absurd hrb h

theorem org_eq_of_same_bike {db : DB} (hInv : Inv db) {a c : Booking}
    (ha : a ∈ db.bookings) (hc : c ∈ db.bookings) (hbike : a.bikeId = c.bikeId) :
    a.organizationId = c.organizationId := by
  obtain ⟨bka, hbka, hida, horga⟩ := hInv.linked a ha
  obtain ⟨bkc, hbkc, hidc, horgc⟩ := hInv.linked c hc
  have hbk : bka = bkc :=
    List.inj_on_of_nodup_map hInv.bikeNodup hbka hbkc (by rw [hida, hidc, hbike])
  rw [← horga, ← horgc, hbk]

theorem inv_markReturned {db db' : DB} {now orgId bookingId : Nat} {req : ReturnReq}
    {s : Settlement}
    (h : markReturned now orgId bookingId req db = .ok (db', s)) (hInv : Inv db) :
    Inv db' := by
  unfold markReturned at h
  split at h
  · cases h
  · simp only [Except.ok.injEq, Prod.mk.injEq] at h
    obtain ⟨hdb, _⟩ := h
    subst hdb
    refine inv_autoFix (inv_mapBooking hInv _ _ ?_ ?_ ?_ ?_) now _ orgId
    · exact fun b => rfl
    · exact fun b => rfl
    · exact fun b => rfl
    · intro b _ _ c _ _
      exact ⟨okPair_of_not_rel_left (not_relevant_of_returned rfl),
        okPair_of_not_rel_right (not_relevant_of_returned rfl)⟩

theorem inv_deleteBooking {db db' : DB} {now orgId bookingId : Nat}
    (h : deleteBooking now orgId bookingId db = .ok db') (hInv : Inv db) : Inv db' := by
  unfold deleteBooking at h
  split at h
  · cases h
  · simp only [Except.ok.injEq] at h
    subst h
    refine inv_autoFix (inv_mapBooking hInv _ _ ?_ ?_ ?_ ?_) now _ orgId
    · exact fun b => rfl
    · exact fun b => rfl
    · exact fun b => rfl
    · intro b _ _ c _ _
      exact ⟨okPair_of_not_rel_left (not_relevant_of_deleted rfl),
        okPair_of_not_rel_right (not_relevant_of_deleted rfl)⟩

theorem inv_deliverBike {db db' : DB} {now orgId bookingId : Nat} {req : DeliverReq}
    (h : deliverBike now orgId bookingId req db = .ok db') (hInv : Inv db) : Inv db' := by
  unfold deliverBike at h
  split at h
  · cases h
  · split at h
    · cases h
    · rename_i booking hf
      split at h
      · cases h
      · split at h
        · cases h
        · rename_i hdeliv hst
          simp only [Except.ok.injEq] at h
          subst h
          obtain ⟨hmem, hbid, _, hdel2⟩ := findBooking_some hf
          refine inv_setBikeStatus (inv_mapBooking hInv _ _ ?_ ?_ ?_ ?_) _ _
          · exact fun b => rfl
          · exact fun b => rfl
          · exact fun b => rfl
          intro b hb hbeq c hc hcne
          have hbb : b = booking :=
            eq_of_id_eq hInv.idNodup hb hmem (by rw [hbeq, hbid])
          subst hbb
          have hrelb : relevant b := by
            refine ⟨?_, hdel2⟩
            cases hsb : b.status with
            | UPCOMING => exact Or.inl rfl
            | ACTIVE => exact Or.inr rfl
            | RETURNED => exact absurd (Or.inl hsb) hst
            | CANCELLED => exact absurd (Or.inr hsb) hst
          have hne : b ≠ c := fun he => hcne (by rw [← he, hbeq])
          have hok1 := hInv.pair.forall okPair_symm hb hc hne
          have hok2 := hInv.pair.forall okPair_symm hc hb (Ne.symm hne)
          constructor
          · intro hbike _ hrc
            exact hok1 hbike hrelb hrc
          · intro hbike hrc _
            exact hok2 hbike hrc hrelb

theorem inv_updateBooking {db db' : DB} {now orgId bookingId : Nat} {req : UpdateReq}
    (h : updateBooking now orgId bookingId req db = .ok db') (hInv : Inv db) :
    Inv db' := by
  unfold updateBooking at h
  split at h
  · cases h
  · rename_i existing hf
    obtain ⟨hmem, hbid, horg, hdel⟩ := findBooking_some hf
    split at h
    · cases h
    · split at h
      · -- dates actually changed
        split at h
        · cases h
        · split at h
          · cases h
          · split at h
            · cases h
            · rename_i hov
              simp only [Except.ok.injEq] at h
              subst h
              unfold applyUpdate
              refine inv_autoFix (inv_mapBooking hInv _ _ ?_ ?_ ?_ ?_) now _ orgId
              · exact fun b => rfl
              · exact fun b => rfl
              · exact fun b => rfl
              · intro b hb hbeq c hc hcne
                have hbb : b = existing :=
                  eq_of_id_eq hInv.idNodup hb hmem (by rw [hbeq, hbid])
                subst hbb
                have hnc := findOverlap_none hov c hc
                have key : b.bikeId = c.bikeId → relevant c →
                    ¬ (c.startDate ≤ proposedEnd req b ∧
                       nextDay (proposedStart req b) ≤ c.endDate) := by
                  intro hbike hrc hcontra
                  refine hnc ⟨fun heq => hcne (Option.some.inj heq).symm, hbike.symm, ?_, ?_,
                    hrc.2, hcontra.1, hcontra.2⟩
                  · rw [← org_eq_of_same_bike hInv hmem hc hbike]; exact horg
                  · rcases hrc.1 with hs | hs
                    · exact Or.inr hs
                    · exact Or.inl hs
                have hsplit : b.bikeId = c.bikeId → relevant c →
                    proposedEnd req b < c.startDate ∨
                    c.endDate < nextDay (proposedStart req b) := by
                  intro hbike hrc
                  by_contra hno
                  push_neg at hno
                  exact key hbike hrc ⟨hno.1, hno.2⟩
                have hendle : (if req.rawEnd.isSome = true then proposedEnd req b
                    else b.endDate) ≤ proposedEnd req b := by
                  cases hre : req.rawEnd with
                  | none =>
                    simp only [hre, Option.isSome_none, Bool.false_eq_true, if_false,
                      proposedEnd, Option.getD_none]
                    exact le_endOfDay b.endDate
                  | some v => simp [hre]
                have hstarteq : nextDay (if req.rawStart.isSome = true
                    then proposedStart req b else b.startDate)
                    = nextDay (proposedStart req b) := by
                  cases hrs : req.rawStart with
                  | none =>
                    simp only [hrs, Option.isSome_none, Bool.false_eq_true, if_false,
                      proposedStart, Option.getD_none]
                    exact (nextDay_startOfDay b.startDate).symm
                  | some v => simp [hrs]
                have hcompat : ∀ (hbike : b.bikeId = c.bikeId), relevant c →
                    ((if req.rawEnd.isSome = true then proposedEnd req b
                        else b.endDate) < nextDay c.startDate ∨
                     c.endDate < nextDay (if req.rawStart.isSome = true
                        then proposedStart req b else b.startDate)) := by
                  intro hbike hrc
                  rcases hsplit hbike hrc with h1 | h1
                  · exact Or.inl (lt_of_le_of_lt hendle
                      (h1.trans (lt_nextDay c.startDate)))
                  · rw [hstarteq]; exact Or.inr h1
                constructor
                · intro hbike _ hrc
                  exact hcompat hbike hrc
                · intro hbike hrc _
                  exact compat_symm (hcompat hbike.symm hrc)
      · -- dates unchanged: only non-date fields rewritten
        simp only [Except.ok.injEq] at h
        subst h
        unfold applyUpdate
        refine inv_autoFix (inv_mapBooking hInv _ _ ?_ ?_ ?_ ?_) now _ orgId
        · exact fun b => rfl
        · exact fun b => rfl
        · exact fun b => rfl
        · intro b hb hbeq c hc hcne
          have hbb : b = existing :=
            eq_of_id_eq hInv.idNodup hb hmem (by rw [hbeq, hbid])
          subst hbb
          have hne : b ≠ c := fun he => hcne (by rw [← he, hbeq])
          have h1 := hInv.pair.forall okPair_symm hb hc hne
          have h2 := hInv.pair.forall okPair_symm hc hb (Ne.symm hne)
          constructor
          · intro hbike hru hrc
            have hc1 : compat b c := h1 hbike hru hrc
            unfold compat at hc1 ⊢
            rw [ite_self, ite_self]
            exact hc1
          · intro hbike hrc hru
            have hc2 : compat c b := h2 hbike hrc hru
            unfold compat at hc2 ⊢
            rw [ite_self, ite_self]
            exact hc2

theorem setBikeStatus_mem {db : DB} {bid : Nat} {st : BikeStatus} {bike : Bike}
    (hmem : bike ∈ db.bikes) :
    ∃ bk ∈ (setBikeStatus db bid st).bikes,
      bk.id = bike.id ∧ bk.organizationId = bike.organizationId := by
  refine ⟨if bike.id = bid then { bike with status := st } else bike,
    List.mem_map.2 ⟨bike, hmem, rfl⟩, ?_, ?_⟩ <;> by_cases hh : bike.id = bid
  · rw [if_pos hh]
  · rw [if_neg hh]
  · rw [if_pos hh]
  · rw [if_neg hh]

theorem autoFix_bike_mem {db : DB} {now bid orgId : Nat} {bike : Bike}
    (hmem : bike ∈ db.bikes) :
    ∃ bk ∈ ((autoFixBikeStatus now bid orgId db).1).bikes,
      bk.id = bike.id ∧ bk.organizationId = bike.organizationId := by
  unfold autoFixBikeStatus
  cases db.bookings.find? (fun b => decide (occupiesNow bid orgId now b)) <;>
    exact setBikeStatus_mem hmem

/-- Appending a fresh booking that is pairwise-compatible with every
stored one preserves the invariant. -/
theorem inv_insert {db : DB} (hInv : Inv db) {nb : Booking}
    (hidn : nb.id = db.nextId)
    (hlink : ∃ bk ∈ db.bikes, bk.id = nb.bikeId ∧ bk.organizationId = nb.organizationId)
    (hok : ∀ c ∈ db.bookings, okPair c nb ∧ okPair nb c) :
    Inv (insertBooking db nb) := by
  constructor
  · exact hInv.bikeNodup
  · intro b hb
    rcases List.mem_append.1 hb with hb | hb
    · exact hInv.linked b hb
    · rw [List.mem_singleton.1 hb]
      exact hlink
  · show ((db.bookings ++ [nb]).map Booking.id).Nodup
    rw [List.map_append]
    rw [List.nodup_append]
    refine ⟨hInv.idNodup, List.nodup_singleton _, ?_⟩
    intro x hx hx2
    rcases List.mem_map.1 hx with ⟨c, hc, rfl⟩
    have hx3 : c.id = nb.id := by simpa using hx2
    have := hInv.idLt c hc
    rw [hx3, hidn] at this
    exact absurd this (lt_irrefl _)
  · intro b hb
    rcases List.mem_append.1 hb with hb | hb
    · exact Nat.lt_succ_of_lt (hInv.idLt b hb)
    · rw [List.mem_singleton.1 hb, hidn]
      exact Nat.lt_succ_self _
  · show (db.bookings ++ [nb]).Pairwise okPair
    rw [List.pairwise_append]
    refine ⟨hInv.pair, List.pairwise_singleton _ _, ?_⟩
    intro c hc b hb
    rw [List.mem_singleton.1 hb]
    exact (hok c hc).1

theorem inv_createdDB {db : DB} (hInv : Inv db) {now orgId : Nat} {req : CreateReq}
    {bike : Bike}
    (hbk : findBike db req.bikeId orgId = some bike)
    (hov : findOverlap req.bikeId orgId (startOfDay req.rawStart) (endOfDay req.rawEnd)
      none ((autoFixBikeStatus now req.bikeId orgId db).1).bookings = none) :
    Inv (createdDB now orgId req bike db) := by
  obtain ⟨hbmem, hbkid, hbkorg, _⟩ := findBike_some hbk
  have hInv1 : Inv (autoFixBikeStatus now req.bikeId orgId db).1 :=
    inv_autoFix hInv now req.bikeId orgId
  have hInv2 : Inv (insertBooking (autoFixBikeStatus now req.bikeId orgId db).1
      (mkNewBooking now orgId req bike
        ((autoFixBikeStatus now req.bikeId orgId db).1).nextId)) := by
    refine inv_insert hInv1 rfl ?_ ?_
    · obtain ⟨bk, hbk2, hid2, horg2⟩ :=
        @autoFix_bike_mem db now req.bikeId orgId bike hbmem
      refine ⟨bk, hbk2, ?_, ?_⟩
      · rw [hid2, hbkid]; rfl
      · rw [horg2, hbkorg]; rfl
    · intro c hc
      rw [autoFix_bookings] at hc
      have hnc := findOverlap_none hov c (by rw [autoFix_bookings]; exact hc)
      have key : c.bikeId = req.bikeId → relevant c →
          ¬ (c.startDate ≤ endOfDay req.rawEnd ∧
             nextDay (startOfDay req.rawStart) ≤ c.endDate) := by
        intro hbike hrc hcontra
        refine hnc ⟨by simp, hbike, ?_, ?_, hrc.2, hcontra.1, hcontra.2⟩
        · obtain ⟨bkc, hbkc, hidc, horgc⟩ := hInv.linked c hc
          have hbkeq : bkc = bike :=
            List.inj_on_of_nodup_map hInv.bikeNodup hbkc hbmem (by rw [hidc, hbike, hbkid])
          rw [← horgc, hbkeq, hbkorg]
        · rcases hrc.1 with hs | hs
          · exact Or.inr hs
          · exact Or.inl hs
      have hcompat : c.bikeId = req.bikeId → relevant c →
          (endOfDay req.rawEnd < nextDay c.startDate ∨
           c.endDate < nextDay (startOfDay req.rawStart)) := by
        intro hbike hrc
        by_contra hno
        push_neg at hno
        rcases Nat.lt_or_ge c.startDate (nextDay (startOfDay req.rawStart)) with h1 | h1
        · -- if neither disjunct holds we contradict the no-overlap query
          refine key hbike hrc ⟨?_, hno.2⟩
          have := hno.1
          -- nextDay c.startDate ≤ endOfDay rawEnd and c.startDate < nextDay c.startDate
          exact le_of_lt (lt_of_lt_of_le (lt_nextDay c.startDate) this)
        · refine key hbike hrc ⟨?_, hno.2⟩
          exact le_of_lt (lt_of_lt_of_le (lt_nextDay c.startDate) hno.1)
      constructor
      · intro hbike hrc _
        rcases hcompat hbike hrc with h1 | h1
        · exact Or.inr h1
        · exact Or.inl h1
      · intro hbike _ hrc
        rcases hcompat hbike.symm hrc with h1 | h1
        · exact Or.inl h1
        · exact Or.inr h1
  unfold createdDB
  by_cases hs : startOfDay req.rawStart ≤ now
  · rw [if_pos hs]
    exact inv_setBikeStatus hInv2 _ _
  · rw [if_neg hs]
    exact inv_autoFix hInv2 now req.bikeId orgId

theorem inv_createBooking {db db' : DB} {now orgId : Nat} {req : CreateReq} {nb : Booking}
    (h : createBooking now orgId req db = .ok (db', nb)) (hInv : Inv db) : Inv db' := by
  unfold createBooking at h
  split at h
  · cases h
  · split at h
    · cases h
    · split at h
      · cases h
      · split at h
        · cases h
        · split at h
          · cases h
          · rename_i bike hbk
            split at h
            · cases h
            · split at h
              · cases h
              · rename_i hov
                simp only [Except.ok.injEq, Prod.mk.injEq] at h
                obtain ⟨hdb, _⟩ := h
                subst hdb
                exact inv_createdDB hInv hbk hov

theorem inv_applyOp {db : DB} (hInv : Inv db) (op : Op) : Inv (applyOp db op) := by
  cases op with
  | create now orgId req =>
    simp only [applyOp]
    split
    · rename_i db' nb hc
      exact inv_createBooking hc hInv
    · exact hInv
  | update now orgId bookingId req =>
    simp only [applyOp]
    split
    · rename_i db' hc
      exact inv_updateBooking hc hInv
    · exact hInv
  | deliver now orgId bookingId req =>
    simp only [applyOp]
    split
    · rename_i db' hc
      exact inv_deliverBike hc hInv
    · exact hInv
  | doReturn now orgId bookingId req =>
    simp only [applyOp]
    split
    · rename_i db' s hc
      exact inv_markReturned hc hInv
    · exact hInv
  | remove now orgId bookingId =>
    simp only [applyOp]
    split
    · rename_i db' hc
      exact inv_deleteBooking hc hInv
    · exact hInv

theorem inv_reachable {bikes0 : List Bike} (hnd : (bikes0.map Bike.id).Nodup)
    {db : DB} (h : Reachable bikes0 db) : Inv db := by
  induction h with
  | init =>
    refine ⟨hnd, ?_, ?_, ?_, ?_⟩
    · intro b hb; cases hb
    · exact List.nodup_nil
    · intro b hb; cases hb
    · exact List.Pairwise.nil
  | step op hr ih => exact inv_applyOp ih op

end VendorApp

namespace VendorApp

/-! ## Claims -/

/-- C1: For every sequence of core operations (createBooking, updateBooking,
deliverBike, markReturned, deleteBooking) starting from an empty booking set
over a well-formed bike inventory, in every reachable state and for every
bike, any two distinct non-deleted bookings of that bike with status in
{UPCOMING, ACTIVE} satisfy `A.end < nextDay(B.start) OR B.end <
nextDay(A.start)` — their date ranges overlap on at most a single shared
boundary day. -/
theorem C1_no_overlap_invariant (bikes0 : List Bike)
    (hnd : (bikes0.map Bike.id).Nodup) (db : DB) (hreach : Reachable bikes0 db)
    (a b : Booking) (ha : a ∈ db.bookings) (hb : b ∈ db.bookings)
    (hne : a.id ≠ b.id) (hbike : a.bikeId = b.bikeId)
    (hra : relevant a) (hrb : relevant b) :
    a.endDate < nextDay b.startDate ∨ b.endDate < nextDay a.startDate := by
  have hInv := inv_reachable hnd hreach
  have hne2 : a ≠ b := fun he => hne (by rw [he])
  exact hInv.pair.forall okPair_symm ha hb hne2 hbike hra hrb

def c1Bike : Bike := ⟨1, 10, 500, .AVAILABLE, false⟩

def c1Op1 : Op :=
  .create (10 * MS_PER_DAY) 10 ⟨"a", true, 1, 10 * MS_PER_DAY, 14 * MS_PER_DAY, none, none⟩

def c1Op2 : Op :=
  .create (10 * MS_PER_DAY + 1) 10 ⟨"b", true, 1, 14 * MS_PER_DAY, 18 * MS_PER_DAY, none, none⟩

def c1DB : DB := applyOp (applyOp ⟨[c1Bike], [], 0⟩ c1Op1) c1Op2

def c1BookingA : Booking :=
  ⟨0, 10, 1, "a", 10 * MS_PER_DAY, 14 * MS_PER_DAY + (MS_PER_DAY - 1),
    2500, 0, .ACTIVE, false, none, none⟩

def c1BookingB : Booking :=
  ⟨1, 10, 1, "b", 14 * MS_PER_DAY, 18 * MS_PER_DAY + (MS_PER_DAY - 1),
    2500, 0, .UPCOMING, false, none, none⟩

/-- Witness for C1: a state reached by two same-day-handover creations
holds two relevant bookings of the bike, and the invariant holds there. -/
theorem C1_no_overlap_invariant_witness :
    c1BookingA.endDate < nextDay c1BookingB.startDate ∨
    c1BookingB.endDate < nextDay c1BookingA.startDate :=
  C1_no_overlap_invariant [c1Bike] (by decide) c1DB
    (Reachable.step c1Op2 (Reachable.step c1Op1 Reachable.init))
    c1BookingA c1BookingB (by decide) (by decide) (by decide) (by decide)
    (by decide) (by decide)

end VendorApp

namespace VendorApp

theorem createBooking_eq (now orgId : Nat) (req : CreateReq) (db : DB) (bike : Bike)
    (h1 : ¬ req.customerName = "") (h2 : ¬ req.phoneValid = false)
    (h3 : ¬ startOfDay req.rawStart < startOfDay now)
    (h4 : ¬ endOfDay req.rawEnd < startOfDay req.rawStart)
    (h5 : findBike db req.bikeId orgId = some bike)
    (h6 : ¬ bike.status = .MAINTENANCE) :
    createBooking now orgId req db =
      match findOverlap req.bikeId orgId (startOfDay req.rawStart) (endOfDay req.rawEnd)
          none ((autoFixBikeStatus now req.bikeId orgId db).1).bookings with
      | some _ => .error .BOOKING_OVERLAP
      | none => .ok (createdDB now orgId req bike db,
          mkNewBooking now orgId req bike
            ((autoFixBikeStatus now req.bikeId orgId db).1).nextId) := by
  unfold createBooking
  simp only [h5, if_neg h1, if_neg h2, if_neg h3, if_neg h4, if_neg h6]

theorem updateBooking_eq {db : DB} {now orgId bookingId : Nat} {req : UpdateReq}
    {existing : Booking}
    (h7 : findBooking db bookingId orgId = some existing)
    (h8 : ¬ req.phoneValid = some false)
    (h9 : datesChanged req existing)
    (h10 : ¬ (req.rawStart.isSome = true ∧
      proposedStart req existing ≠ startOfDay existing.startDate ∧
      proposedStart req existing < startOfDay now))
    (h11 : ¬ proposedEnd req existing < proposedStart req existing) :
    updateBooking now orgId bookingId req db =
      match findOverlap existing.bikeId orgId (proposedStart req existing)
          (proposedEnd req existing) (some bookingId) db.bookings with
      | some _ => .error .BOOKING_OVERLAP
      | none => .ok (autoFixBikeStatus now existing.bikeId orgId
          (applyUpdate db bookingId req (proposedStart req existing)
            (proposedEnd req existing))).1 := by
  unfold updateBooking
  simp only [h7, if_neg h8, if_pos h9, if_neg h10, if_neg h11]

/-- C2: createBooking (and updateBooking when dates change) reports a
BookingOverlap conflict if and only if some booking of the same bike and
organization — status UPCOMING or ACTIVE, not soft-deleted (and, for
update, distinct from the booking being updated) — starts on-or-before the
candidate's (normalized) end and ends on-or-after the next calendar day
after the candidate's (normalized) start. -/
theorem C2_overlap_iff :
    (∀ (now orgId : Nat) (req : CreateReq) (db : DB) (bike : Bike),
      ¬ req.customerName = "" → ¬ req.phoneValid = false →
      ¬ startOfDay req.rawStart < startOfDay now →
      ¬ endOfDay req.rawEnd < startOfDay req.rawStart →
      findBike db req.bikeId orgId = some bike → ¬ bike.status = .MAINTENANCE →
      (createBooking now orgId req db = .error .BOOKING_OVERLAP ↔
        ∃ b ∈ db.bookings, b.bikeId = req.bikeId ∧ b.organizationId = orgId ∧
          (b.status = .UPCOMING ∨ b.status = .ACTIVE) ∧ b.isDeleted = false ∧
          b.startDate ≤ endOfDay req.rawEnd ∧
          nextDay (startOfDay req.rawStart) ≤ b.endDate)) ∧
    (∀ (now orgId bookingId : Nat) (req : UpdateReq) (db : DB) (existing : Booking),
      findBooking db bookingId orgId = some existing →
      ¬ req.phoneValid = some false → datesChanged req existing →
      ¬ (req.rawStart.isSome = true ∧
        proposedStart req existing ≠ startOfDay existing.startDate ∧
        proposedStart req existing < startOfDay now) →
      ¬ proposedEnd req existing < proposedStart req existing →
      (updateBooking now orgId bookingId req db = .error .BOOKING_OVERLAP ↔
        ∃ b ∈ db.bookings, b.id ≠ bookingId ∧ b.bikeId = existing.bikeId ∧
          b.organizationId = orgId ∧
          (b.status = .UPCOMING ∨ b.status = .ACTIVE) ∧ b.isDeleted = false ∧
          b.startDate ≤ proposedEnd req existing ∧
          nextDay (proposedStart req existing) ≤ b.endDate)) := by
  constructor
  · intro now orgId req db bike h1 h2 h3 h4 h5 h6
    have hred := createBooking_eq now orgId req db bike h1 h2 h3 h4 h5 h6
    cases hov : findOverlap req.bikeId orgId (startOfDay req.rawStart) (endOfDay req.rawEnd)
        none ((autoFixBikeStatus now req.bikeId orgId db).1).bookings with
    | some ob =>
      have hmem : ob ∈ ((autoFixBikeStatus now req.bikeId orgId db).1).bookings :=
        List.mem_of_find?_eq_some hov
      rw [autoFix_bookings] at hmem
      have hp := List.find?_some hov
      rw [decide_eq_true_eq] at hp
      obtain ⟨_, hb1, hb2, hb3, hb4, hb5, hb6⟩ := hp
      constructor
      · intro _
        refine ⟨ob, hmem, hb1, hb2, ?_, hb4, hb5, hb6⟩
        rcases hb3 with hs | hs
        · exact Or.inr hs
        · exact Or.inl hs
      · intro _
        simp [hred, hov]
    | none =>
      have hnone := findOverlap_none hov
      constructor
      · intro hc
        rw [hred, hov] at hc
        cases hc
      · intro hex
        obtain ⟨b, hbmem, hb1, hb2, hb3, hb4, hb5, hb6⟩ := hex
        refine absurd ?_ (hnone b (by rw [autoFix_bookings]; exact hbmem))
        refine ⟨by simp, hb1, hb2, ?_, hb4, hb5, hb6⟩
        rcases hb3 with hs | hs
        · exact Or.inr hs
        · exact Or.inl hs
  · intro now orgId bookingId req db existing h7 h8 h9 h10 h11
    have hred := updateBooking_eq h7 h8 h9 h10 h11
    cases hov : findOverlap existing.bikeId orgId (proposedStart req existing)
        (proposedEnd req existing) (some bookingId) db.bookings with
    | some ob =>
      have hmem : ob ∈ db.bookings := List.mem_of_find?_eq_some hov
      have hp := List.find?_some hov
      rw [decide_eq_true_eq] at hp
      obtain ⟨hb0, hb1, hb2, hb3, hb4, hb5, hb6⟩ := hp
      constructor
      · intro _
        refine ⟨ob, hmem, fun hid => hb0 (by rw [hid]), hb1, hb2, ?_, hb4, hb5, hb6⟩
        rcases hb3 with hs | hs
        · exact Or.inr hs
        · exact Or.inl hs
      · intro _
        simp [hred, hov]
    | none =>
      have hnone := findOverlap_none hov
      constructor
      · intro hc
        rw [hred, hov] at hc
        cases hc
      · intro hex
        obtain ⟨b, hbmem, hb0, hb1, hb2, hb3, hb4, hb5, hb6⟩ := hex
        refine absurd ?_ (hnone b hbmem)
        refine ⟨fun heq => hb0 (Option.some.inj heq).symm, hb1, hb2, ?_, hb4, hb5, hb6⟩
        rcases hb3 with hs | hs
        · exact Or.inr hs
        · exact Or.inl hs

end VendorApp

namespace VendorApp

def c2Bike : Bike := ⟨1, 10, 500, .AVAILABLE, false⟩

def c2Booking : Booking :=
  ⟨101, 10, 1, "e", 4 * MS_PER_DAY, 9 * MS_PER_DAY + (MS_PER_DAY - 1),
    2500, 0, .UPCOMING, false, none, none⟩

def c2DB : DB := ⟨[c2Bike], [c2Booking], 300⟩

def c2Req : CreateReq := ⟨"c", true, 1, 3 * MS_PER_DAY, 6 * MS_PER_DAY, none, none⟩

def c2UBooking : Booking :=
  ⟨200, 10, 1, "u", 12 * MS_PER_DAY, 13 * MS_PER_DAY + (MS_PER_DAY - 1),
    500, 0, .UPCOMING, false, none, none⟩

def c2UDB : DB := ⟨[c2Bike], [c2Booking, c2UBooking], 300⟩

def c2UReq : UpdateReq := ⟨none, none, some (5 * MS_PER_DAY), some (6 * MS_PER_DAY), none, none⟩

/-- Witness for C2: a candidate range that straddles an existing UPCOMING
booking is reported as BookingOverlap by createBooking, and likewise for an
updateBooking whose changed dates collide with another booking. -/
theorem C2_overlap_iff_witness :
    createBooking (3 * MS_PER_DAY) 10 c2Req c2DB = .error .BOOKING_OVERLAP ∧
    updateBooking (3 * MS_PER_DAY) 10 200 c2UReq c2UDB = .error .BOOKING_OVERLAP :=
  ⟨(C2_overlap_iff.1 (3 * MS_PER_DAY) 10 c2Req c2DB c2Bike (by decide) (by decide)
      (by decide) (by decide) (by decide) (by decide)).2 (by decide),
   (C2_overlap_iff.2 (3 * MS_PER_DAY) 10 200 c2UReq c2UDB c2UBooking (by decide)
      (by decide) (by decide) (by decide) (by decide)).2 (by decide)⟩

end VendorApp

namespace VendorApp

theorem startOfDay_dvd (t : Nat) : MS_PER_DAY ∣ startOfDay t :=
  ⟨t / MS_PER_DAY, rfl⟩

theorem nextDay_le_of_day_lt {a b : Nat} (hb : MS_PER_DAY ∣ b)
    (h : startOfDay a < b) : nextDay a ≤ b := by
  obtain ⟨k2, rfl⟩ := hb
  have hk : a / MS_PER_DAY < k2 := by
    by_contra hge
    push_neg at hge
    have h2 := Nat.mul_le_mul_left MS_PER_DAY hge
    rw [startOfDay] at h
    omega
  calc nextDay a = MS_PER_DAY * (a / MS_PER_DAY + 1) := by
        rw [nextDay, startOfDay]; ring
    _ ≤ MS_PER_DAY * k2 := Nat.mul_le_mul_left _ hk

/-- C3 counterexample: a bike with a single UPCOMING booking on days 4-9
(Jan 5-Jan 10) and a candidate on days 0-4 (Jan 1-Jan 5): the candidate
ends exactly on the start day of the existing booking — the claim says
both directions of same-day handover are accepted, but createBooking
reports BookingOverlap here. -/
theorem C3_counterexample :
    startOfDay ((⟨"c", true, 1, 0, 4 * MS_PER_DAY, none, none⟩ : CreateReq).rawEnd)
      = (⟨101, 10, 1, "b", 4 * MS_PER_DAY, 9 * MS_PER_DAY + (MS_PER_DAY - 1),
          2500, 0, .UPCOMING, false, none, none⟩ : Booking).startDate ∧
    createBooking 0 10 ⟨"c", true, 1, 0, 4 * MS_PER_DAY, none, none⟩
      ⟨[⟨1, 10, 500, .AVAILABLE, false⟩],
       [⟨101, 10, 1, "b", 4 * MS_PER_DAY, 9 * MS_PER_DAY + (MS_PER_DAY - 1),
          2500, 0, .UPCOMING, false, none, none⟩], 300⟩
      = .error .BOOKING_OVERLAP := by decide

/-- C3 (amended): same-day handover is one-directional in the overlap
check.  A candidate that starts on the end day of the (sole) existing
booking is accepted; a candidate that ends on the start day of an existing
UPCOMING/ACTIVE booking and starts on an earlier day is rejected with
BookingOverlap. -/
theorem C3_handover :
    (∀ (now orgId : Nat) (req : CreateReq) (db : DB) (bike : Bike) (ex : Booking),
      db.bookings = [ex] →
      ¬ req.customerName = "" → ¬ req.phoneValid = false →
      ¬ startOfDay req.rawStart < startOfDay now →
      ¬ endOfDay req.rawEnd < startOfDay req.rawStart →
      findBike db req.bikeId orgId = some bike → ¬ bike.status = .MAINTENANCE →
      startOfDay req.rawStart = startOfDay ex.endDate →
      ∃ p, createBooking now orgId req db = .ok p) ∧
    (∀ (now orgId : Nat) (req : CreateReq) (db : DB) (bike : Bike) (ex : Booking),
      ex ∈ db.bookings →
      ex.bikeId = req.bikeId → ex.organizationId = orgId →
      (ex.status = .UPCOMING ∨ ex.status = .ACTIVE) → ex.isDeleted = false →
      ex.startDate ≤ ex.endDate →
      ¬ req.customerName = "" → ¬ req.phoneValid = false →
      ¬ startOfDay req.rawStart < startOfDay now →
      ¬ endOfDay req.rawEnd < startOfDay req.rawStart →
      findBike db req.bikeId orgId = some bike → ¬ bike.status = .MAINTENANCE →
      startOfDay ex.startDate = startOfDay req.rawEnd →
      startOfDay req.rawStart < startOfDay ex.startDate →
      createBooking now orgId req db = .error .BOOKING_OVERLAP) := by
  constructor
  · intro now orgId req db bike ex hbl h1 h2 h3 h4 h5 h6 hstart
    have hred := createBooking_eq now orgId req db bike h1 h2 h3 h4 h5 h6
    have hov : findOverlap req.bikeId orgId (startOfDay req.rawStart) (endOfDay req.rawEnd)
        none ((autoFixBikeStatus now req.bikeId orgId db).1).bookings = none := by
      rw [findOverlap, List.find?_eq_none]
      intro b hb
      rw [autoFix_bookings, hbl, List.mem_singleton] at hb
      subst hb
      rw [decide_eq_true_eq]
      intro hconf
      have h7 := hconf.2.2.2.2.2.2
      rw [hstart, nextDay_startOfDay] at h7
      exact absurd h7 (Nat.not_le_of_lt (lt_nextDay b.endDate))
    rw [hred, hov]
    exact ⟨_, rfl⟩
  · intro now orgId req db bike ex hmem hexbike hexorg hexst hexdel hexrange
      h1 h2 h3 h4 h5 h6 hend hlt
    have hred := createBooking_eq now orgId req db bike h1 h2 h3 h4 h5 h6
    have hconf : overlapConflict req.bikeId orgId (startOfDay req.rawStart)
        (endOfDay req.rawEnd) none ex := by
      refine ⟨by simp, hexbike, hexorg, ?_, hexdel, ?_, ?_⟩
      · rcases hexst with hs | hs
        · exact Or.inr hs
        · exact Or.inl hs
      · have h8 : ex.startDate ≤ endOfDay ex.startDate := le_endOfDay _
        have h9 : endOfDay ex.startDate = endOfDay req.rawEnd := by
          unfold endOfDay
          rw [hend]
        rw [← h9]
        exact h8
      · have h8 : nextDay req.rawStart ≤ startOfDay ex.startDate :=
          nextDay_le_of_day_lt (startOfDay_dvd ex.startDate) hlt
        rw [nextDay_startOfDay]
        exact le_trans h8 (le_trans (startOfDay_le _) hexrange)
    have hsome : ∃ ob, findOverlap req.bikeId orgId (startOfDay req.rawStart)
        (endOfDay req.rawEnd) none
        ((autoFixBikeStatus now req.bikeId orgId db).1).bookings = some ob := by
      rw [← Option.isSome_iff_exists, findOverlap, List.find?_isSome]
      exact ⟨ex, by rw [autoFix_bookings]; exact hmem, by
        rw [decide_eq_true_eq]; exact hconf⟩
    obtain ⟨ob, hob⟩ := hsome
    rw [hred, hob]

end VendorApp

namespace VendorApp

def c3Bike : Bike := ⟨1, 10, 500, .AVAILABLE, false⟩

def c3aBooking : Booking :=
  ⟨100, 10, 1, "a", 0, 4 * MS_PER_DAY + (MS_PER_DAY - 1), 2500, 0, .ACTIVE, false, none, none⟩

def c3aDB : DB := ⟨[c3Bike], [c3aBooking], 300⟩

def c3aReq : CreateReq := ⟨"c", true, 1, 4 * MS_PER_DAY, 9 * MS_PER_DAY, none, none⟩

def c3bBooking : Booking :=
  ⟨101, 10, 1, "b", 4 * MS_PER_DAY, 9 * MS_PER_DAY + (MS_PER_DAY - 1),
    2500, 0, .UPCOMING, false, none, none⟩

def c3bDB : DB := ⟨[c3Bike], [c3bBooking], 300⟩

def c3bReq : CreateReq := ⟨"c", true, 1, 0, 4 * MS_PER_DAY, none, none⟩

/-- Witness for C3 (amended): a candidate starting on the existing end day
is accepted; a candidate ending on the existing start day is rejected. -/
theorem C3_handover_witness :
    (∃ p, createBooking (4 * MS_PER_DAY) 10 c3aReq c3aDB = .ok p) ∧
    createBooking 0 10 c3bReq c3bDB = .error .BOOKING_OVERLAP :=
  ⟨C3_handover.1 (4 * MS_PER_DAY) 10 c3aReq c3aDB c3Bike c3aBooking rfl
      (by decide) (by decide) (by decide) (by decide) (by decide) (by decide) (by decide),
   C3_handover.2 0 10 c3bReq c3bDB c3Bike c3bBooking (by decide) (by decide)
      (by decide) (by decide) (by decide) (by decide) (by decide) (by decide)
      (by decide) (by decide) (by decide) (by decide) (by decide) (by decide)⟩

end VendorApp

namespace VendorApp

def c4Bike : Bike := ⟨1, 10, 500, .MAINTENANCE, false⟩

def c4DB : DB := ⟨[c4Bike], [], 0⟩

/-- C4 counterexample: for a MAINTENANCE bike with no bookings at all, the
bookings-controller reconciliation (autoFixBikeStatus, cited by the claim)
overwrites the stored MAINTENANCE with AVAILABLE. -/
theorem C4_counterexample :
    c4DB.bikes.map Bike.status = [.MAINTENANCE] ∧
    ((autoFixBikeStatus 0 1 10 c4DB).1).bikes.map Bike.status = [.AVAILABLE] := by
  decide

/-- C4 (amended): the dashboard-controller reconciliation leaves a stored
MAINTENANCE untouched (it returns the store unchanged), while the
bookings-controller reconciliation unconditionally writes the
occupancy-derived status over whatever is stored — including
MAINTENANCE. -/
theorem C4_maintenance_override :
    (∀ (now bikeId orgId : Nat) (db : DB) (bike : Bike),
      db.bikes.find? (fun bk => decide (bk.id = bikeId)) = some bike →
      bike.status = .MAINTENANCE →
      autoFixBikeStatusDash now bikeId orgId db = db) ∧
    (∀ (now bikeId orgId : Nat) (db : DB),
      (autoFixBikeStatus now bikeId orgId db).1
        = setBikeStatus db bikeId (autoFixBikeStatus now bikeId orgId db).2) := by
  constructor
  · intro now bikeId orgId db bike hf hm
    unfold autoFixBikeStatusDash
    simp only [hf]
    cases hd : bike.isDeleted with
    | true => rw [if_pos rfl]
    | false =>
      rw [if_neg (by simp), if_pos hm]
  · intro now bikeId orgId db
    unfold autoFixBikeStatus
    cases db.bookings.find? (fun b => decide (occupiesNow bikeId orgId now b)) <;> rfl

/-- Witness for C4 (amended): the dashboard reconciliation leaves the
MAINTENANCE bike of the counterexample store unchanged. -/
theorem C4_maintenance_override_witness :
    autoFixBikeStatusDash 0 1 10 c4DB = c4DB :=
  C4_maintenance_override.1 0 1 10 c4DB c4Bike (by decide) (by decide)

def c5Bike : Bike := ⟨1, 10, 500, .RENTED, false⟩

def c5Overdue : Booking :=
  ⟨103, 10, 1, "o", 0, MS_PER_DAY - 1, 500, 0, .ACTIVE, false, none, none⟩

def c5DB : DB := ⟨[c5Bike], [c5Overdue], 200⟩

/-- C5 counterexample: an ACTIVE, non-deleted booking that started on day 0
and whose end date (day 0) has already passed at `now` = day 3 occupies the
bike per the claim ("irrespective of whether that booking's end date has
already passed"), yet the bikes-controller iteration of autoFixBikeStatus
(cited by the claim) requires `endDate >= now` and therefore derives and
stores AVAILABLE. -/
theorem C5_counterexample :
    (∃ b ∈ c5DB.bookings, (b.status = .UPCOMING ∨ b.status = .ACTIVE) ∧
      b.isDeleted = false ∧ b.startDate ≤ 3 * MS_PER_DAY ∧ b.bikeId = 1 ∧
      b.organizationId = 10) ∧
    (autoFixBikeStatusBikes (3 * MS_PER_DAY) 1 10 c5DB).2 = "AVAILABLE" ∧
    ((autoFixBikeStatusBikes (3 * MS_PER_DAY) 1 10 c5DB).1).bikes.map Bike.status
      = [.AVAILABLE] := by
  decide

/-- C5 (amended): the bookings-controller reconciliation derives RENTED
exactly when an UPCOMING/ACTIVE, non-deleted booking of the bike and
organization has started (start on-or-before now, end date irrelevant),
and AVAILABLE exactly otherwise; the superseded bikes-controller iteration
instead requires the end date not to have passed. -/
theorem C5_rented_iff (now bikeId orgId : Nat) (db : DB) :
    ((autoFixBikeStatus now bikeId orgId db).2 = .RENTED ↔
      ∃ b ∈ db.bookings, b.bikeId = bikeId ∧ b.organizationId = orgId ∧
        (b.status = .UPCOMING ∨ b.status = .ACTIVE) ∧ b.isDeleted = false ∧
        b.startDate ≤ now) ∧
    ((autoFixBikeStatus now bikeId orgId db).2 = .AVAILABLE ↔
      ¬ ∃ b ∈ db.bookings, b.bikeId = bikeId ∧ b.organizationId = orgId ∧
        (b.status = .UPCOMING ∨ b.status = .ACTIVE) ∧ b.isDeleted = false ∧
        b.startDate ≤ now) := by
  have hiff : (∃ b ∈ db.bookings, b.bikeId = bikeId ∧ b.organizationId = orgId ∧
      (b.status = .UPCOMING ∨ b.status = .ACTIVE) ∧ b.isDeleted = false ∧
      b.startDate ≤ now) ↔
      ∃ b ∈ db.bookings, occupiesNow bikeId orgId now b := by
    constructor
    · rintro ⟨b, hb, h1, h2, h3, h4, h5⟩
      refine ⟨b, hb, h1, h2, ?_, h4, h5⟩
      rcases h3 with hs | hs
      · exact Or.inr hs
      · exact Or.inl hs
    · rintro ⟨b, hb, h1, h2, h3, h4, h5⟩
      refine ⟨b, hb, h1, h2, ?_, h4, h5⟩
      rcases h3 with hs | hs
      · exact Or.inr hs
      · exact Or.inl hs
  unfold autoFixBikeStatus
  cases hf : db.bookings.find? (fun b => decide (occupiesNow bikeId orgId now b)) with
  | some b =>
    have hb : ∃ x ∈ db.bookings, occupiesNow bikeId orgId now x :=
      ⟨b, List.mem_of_find?_eq_some hf, by
        have := List.find?_some hf
        rwa [decide_eq_true_eq] at this⟩
    constructor
    · simp only [true_iff]
      exact hiff.2 hb
    · constructor
      · intro hav
        cases hav
      · intro hno
        exact absurd (hiff.2 hb) (fun hx => hno hx)
  | none =>
    have hno : ¬ ∃ x ∈ db.bookings, occupiesNow bikeId orgId now x := by
      rintro ⟨x, hx, hocc⟩
      have := List.find?_eq_none.1 hf x hx
      rw [decide_eq_true_eq] at this
      exact this hocc
    constructor
    · constructor
      · intro hr
        cases hr
      · intro hex
        exact absurd (hiff.1 hex) hno
    · simp only [true_iff]
      intro hex
      exact hno (hiff.1 hex)

end VendorApp

namespace VendorApp

def c6Bike : Bike := ⟨1, 10, 500, .RENTED, false⟩

def c6First : Booking :=
  ⟨100, 10, 1, "a", 0, 4 * MS_PER_DAY + (MS_PER_DAY - 1), 2500, 0, .ACTIVE, false, none, none⟩

def c6Second : Booking :=
  ⟨101, 10, 1, "b", 4 * MS_PER_DAY, 9 * MS_PER_DAY + (MS_PER_DAY - 1),
    2500, 0, .UPCOMING, false, none, none⟩

def c6DB : DB := ⟨[c6Bike], [c6First, c6Second], 300⟩

/-- An instant inside the first booking: day 2 (Jan 3 when day 0 is Jan 1). -/
def c6Now : Nat := 2 * MS_PER_DAY + 5000000

/-- C6 counterexample: on the back-to-back scenario (bookings days 0-4 and
4-9, i.e. Jan1-Jan5 and Jan5-Jan10, queried on Jan 3) the superseded
chain-merge iteration of computeAvailability (bookings.controller.js lines
89-176, cited by the claim) reports nextAvailableDate = day 10 (Jan 11,
the day after the chain end), not day 9 (Jan 10) as the claim states. -/
theorem C6_counterexample :
    (computeAvailabilityMerged c6Now 1 10 c6DB).isAvailableNow = false ∧
    (computeAvailabilityMerged c6Now 1 10 c6DB).nextAvailableDate
      = some (10 * MS_PER_DAY) ∧
    (10 * MS_PER_DAY : Nat) ≠ 9 * MS_PER_DAY := by decide

/-- C6 (amended): on the back-to-back scenario, the final day-walk
iteration of computeAvailability absorbs the whole contiguous chain and
reports isAvailableNow = false with nextAvailableDate = Jan 10 (day 9, the
chain's end day — same-day handover), not Jan 5; the superseded merge
iteration instead reports Jan 11 (the day after the chain end). -/
theorem C6_chain_projection :
    (computeAvailability c6Now 1 10 c6DB).isAvailableNow = false ∧
    (computeAvailability c6Now 1 10 c6DB).nextAvailableDate = some (9 * MS_PER_DAY) ∧
    (computeAvailability c6Now 1 10 c6DB).nextAvailableDate ≠ some (4 * MS_PER_DAY) ∧
    (computeAvailability c6Now 1 10 c6DB).currentBookingId = some 100 ∧
    (computeAvailability c6Now 1 10 c6DB).blockingIds = [100, 101] ∧
    (computeAvailability c6Now 1 10 c6DB).returnInDays = 7 ∧
    (computeAvailabilityMerged c6Now 1 10 c6DB).isAvailableNow = false ∧
    (computeAvailabilityMerged c6Now 1 10 c6DB).nextAvailableDate
      = some (10 * MS_PER_DAY) := by decide

theorem settleReturn_spec (now : Nat) (req : ReturnReq) (b : Booking) (rate : Int) :
    (settleReturn now req b rate).overdueDays
      = (startOfDay now - startOfDay b.endDate) / MS_PER_DAY ∧
    (settleReturn now req b rate).overdueFee
      = ((settleReturn now req b rate).overdueDays : Int) * rate ∧
    ((req.lateFee = none ∨ req.lateFee = some 0) →
      (settleReturn now req b rate).lateFeeApplied
        = (settleReturn now req b rate).overdueFee) ∧
    (∀ v : Int, req.lateFee = some v → v ≠ 0 →
      (settleReturn now req b rate).lateFeeApplied = v) ∧
    (settleReturn now req b rate).newTotal - (settleReturn now req b rate).originalTotal
      = (settleReturn now req b rate).lateFeeApplied
        + (settleReturn now req b rate).fuelCharge
        + (settleReturn now req b rate).damageCharge
        + (settleReturn now req b rate).extraKmsCharge
        + (settleReturn now req b rate).fines ∧
    (settleReturn now req b rate).originalTotal = b.totalAmount ∧
    (settleReturn now req b rate).fuelCharge = req.fuelCharge.getD 0 ∧
    (settleReturn now req b rate).damageCharge = req.damageCharge.getD 0 ∧
    (settleReturn now req b rate).extraKmsCharge = req.extraKmsCharge.getD 0 ∧
    (settleReturn now req b rate).fines = req.finesAmount.getD 0 := by
  unfold settleReturn
  simp only []
  refine ⟨?_, ?_, ?_, ?_, by ring, trivial, trivial, trivial, trivial, trivial⟩
  · by_cases h : startOfDay b.endDate < startOfDay now
    · rw [if_pos h]
    · rw [if_neg h, Nat.sub_eq_zero_of_le (Nat.le_of_not_lt h), Nat.zero_div]
  · by_cases h : 0 < (if startOfDay b.endDate < startOfDay now
        then (startOfDay now - startOfDay b.endDate) / MS_PER_DAY else 0)
    · rw [if_pos h]
    · rw [if_neg h]
      have h0 : (if startOfDay b.endDate < startOfDay now
          then (startOfDay now - startOfDay b.endDate) / MS_PER_DAY else 0) = 0 := by
        omega
      rw [h0]
      simp
  · intro hl
    rcases hl with hl | hl
    · rw [hl]
    · rw [hl]
      simp
  · intro v hv hvne
    rw [hv]
    simp only []
    rw [if_neg hvne]

theorem markReturned_eq {db : DB} {now orgId bookingId : Nat} {req : ReturnReq}
    {booking : Booking} (hf : findBooking db bookingId orgId = some booking) :
    markReturned now orgId bookingId req db =
      .ok ((autoFixBikeStatus now booking.bikeId orgId
          (mapBooking db bookingId fun b =>
            { b with
              status := .RETURNED
              endDate := now
              totalAmount := (settleReturn now req booking (rateOf db booking.bikeId)).newTotal
              paidAmount := (settleReturn now req booking (rateOf db booking.bikeId)).newPaid
              returnedAt := some now })).1,
        settleReturn now req booking (rateOf db booking.bikeId)) := by
  unfold markReturned
  simp only [hf]

def c7Bike : Bike := ⟨1, 10, 500, .RENTED, false⟩

def c7Booking : Booking :=
  ⟨102, 10, 1, "c", 0, 4 * MS_PER_DAY + (MS_PER_DAY - 1), 2500, 0, .ACTIVE, false, none, none⟩

def c7DB : DB := ⟨[c7Bike], [c7Booking], 300⟩

/-- The return instant: Jan 8 (day 7) at 01:00. -/
def c7Now : Nat := 7 * MS_PER_DAY + 3600000

/-- C7 counterexample: supplying an explicit lateFee override of 0 on an
overdue return (scheduled end Jan 5, returned Jan 8, dailyRate 500) does
not waive the fee — `lateFee ? Number(lateFee) : overdueFee` treats 0 as
absent, so 1500 is charged and newTotal is 4000, where the claim's
"overdueFee = overdueDays x dailyRate unless an explicit lateFee override
is supplied" demands 0 and newTotal 2500. -/
theorem C7_counterexample :
    (markReturned c7Now 10 102 ⟨none, none, none, none, none, some 0⟩ c7DB).toOption.map
        (fun p => (p.2.lateFeeApplied, p.2.newTotal, p.2.originalTotal))
      = some (1500, 4000, 2500) := by decide

/-- C7 (amended): markReturned settles any booking it can resolve with
`settleReturn`, whose output satisfies: overdueDays = max(0, whole days
from the scheduled end day to today); overdueFee = overdueDays x dailyRate,
applied unless a NONZERO explicit lateFee override is supplied (a zero
override is falsy in JS and falls back to the computed fee); every other
charge defaults to zero when absent; and newTotal - originalTotal =
appliedLateFee + fuelCharge + damageCharge + extraKmsCharge + fines
exactly.  In particular dailyRate 500, booking scheduled Jan 1-Jan 5 and
returned Jan 8 yields overdueDays = 3 and fee 1500. -/
theorem C7_settlement :
    (∀ (now orgId bookingId : Nat) (req : ReturnReq) (db : DB) (booking : Booking),
      findBooking db bookingId orgId = some booking →
      ∃ db', markReturned now orgId bookingId req db
        = .ok (db', settleReturn now req booking (rateOf db booking.bikeId))) ∧
    (∀ (now : Nat) (req : ReturnReq) (b : Booking) (rate : Int),
      (settleReturn now req b rate).overdueDays
        = (startOfDay now - startOfDay b.endDate) / MS_PER_DAY ∧
      (settleReturn now req b rate).overdueFee
        = ((settleReturn now req b rate).overdueDays : Int) * rate ∧
      ((req.lateFee = none ∨ req.lateFee = some 0) →
        (settleReturn now req b rate).lateFeeApplied
          = (settleReturn now req b rate).overdueFee) ∧
      (∀ v : Int, req.lateFee = some v → v ≠ 0 →
        (settleReturn now req b rate).lateFeeApplied = v) ∧
      (settleReturn now req b rate).newTotal
          - (settleReturn now req b rate).originalTotal
        = (settleReturn now req b rate).lateFeeApplied
          + (settleReturn now req b rate).fuelCharge
          + (settleReturn now req b rate).damageCharge
          + (settleReturn now req b rate).extraKmsCharge
          + (settleReturn now req b rate).fines ∧
      (settleReturn now req b rate).originalTotal = b.totalAmount ∧
      (settleReturn now req b rate).fuelCharge = req.fuelCharge.getD 0 ∧
      (settleReturn now req b rate).damageCharge = req.damageCharge.getD 0 ∧
      (settleReturn now req b rate).extraKmsCharge = req.extraKmsCharge.getD 0 ∧
      (settleReturn now req b rate).fines = req.finesAmount.getD 0) ∧
    ((settleReturn c7Now ⟨none, none, none, none, none, none⟩ c7Booking 500).overdueDays = 3 ∧
     (settleReturn c7Now ⟨none, none, none, none, none, none⟩ c7Booking 500).lateFeeApplied = 1500 ∧
     (settleReturn c7Now ⟨none, none, none, none, none, none⟩ c7Booking 500).newTotal
       = (settleReturn c7Now ⟨none, none, none, none, none, none⟩ c7Booking 500).originalTotal
         + 1500) := by
  refine ⟨?_, settleReturn_spec, by decide⟩
  intro now orgId bookingId req db booking hf
  exact ⟨_, markReturned_eq hf⟩

/-- Witness for C7: the settlement of the Jan-8 return resolves through
markReturned on the concrete store. -/
theorem C7_settlement_witness :
    ∃ db', markReturned c7Now 10 102 ⟨none, none, none, none, none, none⟩ c7DB
      = .ok (db', settleReturn c7Now ⟨none, none, none, none, none, none⟩ c7Booking
          (rateOf c7DB c7Booking.bikeId)) :=
  C7_settlement.1 c7Now 10 102 ⟨none, none, none, none, none, none⟩ c7DB c7Booking
    (by decide)

end VendorApp

namespace VendorApp

def c8Bike : Bike := ⟨1, 10, 500, .AVAILABLE, false⟩

/-- A RETURNED booking with a recorded settlement (returnedAt set, charges
folded into totalAmount). -/
def c8Booking : Booking :=
  ⟨104, 10, 1, "r", 0, MS_PER_DAY, 2000, 2000, .RETURNED, false, none, some MS_PER_DAY⟩

def c8DB : DB := ⟨[c8Bike], [c8Booking], 300⟩

/-- C8 counterexample: deleteBooking soft-deletes a RETURNED booking with a
recorded settlement without any error — the claim says this must not
succeed. -/
theorem C8_counterexample :
    c8Booking.status = .RETURNED ∧ c8Booking.returnedAt.isSome = true ∧
    (deleteBooking (2 * MS_PER_DAY) 10 104 c8DB).toOption.map
        (fun db' => db'.bookings.map Booking.isDeleted) = some [true] := by decide

/-- C8 (amended): deleteBooking has no lifecycle or settlement
precondition: it soft-deletes every booking that resolves in the
organization scope and is not already deleted — including RETURNED or
CANCELLED bookings and bookings with a recorded settlement. -/
theorem C8_delete_unconditional (now orgId bookingId : Nat) (db : DB) (booking : Booking)
    (hf : findBooking db bookingId orgId = some booking) :
    ∃ db', deleteBooking now orgId bookingId db = .ok db' ∧
      (∀ b ∈ db'.bookings, b.id = bookingId → b.isDeleted = true) ∧
      ∃ b ∈ db'.bookings, b.id = bookingId := by
  obtain ⟨hmem, hbid, _, _⟩ := findBooking_some hf
  have hd : deleteBooking now orgId bookingId db
      = .ok ((autoFixBikeStatus now booking.bikeId orgId
          (mapBooking db bookingId fun b => { b with isDeleted := true })).1) := by
    unfold deleteBooking
    simp only [hf]
  refine ⟨_, hd, ?_, ?_⟩
  · intro b hb hid
    rw [autoFix_bookings] at hb
    obtain ⟨c, hc, rfl⟩ := List.mem_map.1 hb
    by_cases hcb : c.id = bookingId
    · rw [if_pos hcb]
    · rw [if_neg hcb] at hid ⊢
      exact absurd hid hcb
  · refine ⟨if booking.id = bookingId then { booking with isDeleted := true } else booking,
      ?_, ?_⟩
    · rw [autoFix_bookings]
      exact List.mem_map.2 ⟨booking, hmem, rfl⟩
    · rw [if_pos hbid]
      exact hbid

/-- Witness for C8 (amended): the RETURNED, settled booking of the
counterexample store is soft-deleted. -/
theorem C8_delete_unconditional_witness :
    ∃ db', deleteBooking (2 * MS_PER_DAY) 10 104 c8DB = .ok db' ∧
      (∀ b ∈ db'.bookings, b.id = 104 → b.isDeleted = true) ∧
      ∃ b ∈ db'.bookings, b.id = 104 :=
  C8_delete_unconditional (2 * MS_PER_DAY) 10 104 c8DB c8Booking (by decide)

theorem find?_map_setStatus (l : List Bike) (bikeId : Nat) (st : BikeStatus) (bike : Bike)
    (hf : l.find? (fun bk => decide (bk.id = bikeId)) = some bike) :
    (l.map fun bk => if bk.id = bikeId then { bk with status := st } else bk).find?
      (fun bk => decide (bk.id = bikeId)) = some { bike with status := st } := by
  induction l with
  | nil => cases hf
  | cons x xs ih =>
    by_cases hx : x.id = bikeId
    · rw [List.find?_cons_of_pos _ (by simpa using hx)] at hf
      obtain rfl := Option.some.inj hf
      rw [List.map_cons, if_pos hx, List.find?_cons_of_pos _ (by simpa using hx)]
    · rw [List.find?_cons_of_neg _ (by simpa using hx)] at hf
      rw [List.map_cons, if_neg hx, List.find?_cons_of_neg _ (by simpa using hx)]
      exact ih hf

def c9Bike : Bike := ⟨1, 10, 500, .AVAILABLE, false⟩

def c9Op : Op := .create 0 10 ⟨"z", true, 1, MS_PER_DAY, 2 * MS_PER_DAY, none, none⟩

/-- A reachable state: an UPCOMING booking for day 1 was created at
instant 0; no reconciliation has run since, so the stored bike status is
still AVAILABLE when day 1 arrives. -/
def c9DB : DB := applyOp ⟨[c9Bike], [], 0⟩ c9Op

/-- C9 counterexample: at an instant on day 1 the UPCOMING booking
occupies the bike (non-terminal, non-deleted, start on-or-before now), yet
toggleBikeMaintenance succeeds and switches the bike to MAINTENANCE —
because the handler only inspects the stored status, which lags at
AVAILABLE; the claim demands a BikeRented rejection whenever a booking
occupies the bike. -/
theorem C9_counterexample :
    (∃ b ∈ c9DB.bookings, occupiesNow 1 10 (MS_PER_DAY + 5) b) ∧
    c9DB.bikes.map Bike.status = [.AVAILABLE] ∧
    (toggleBikeMaintenance 10 1 c9DB).toOption.map (fun p => p.2)
      = some .MAINTENANCE := by decide

/-- C9 (amended): toggleBikeMaintenance is rejected with BikeRented exactly
when the bike's STORED status is RENTED (occupancy by bookings is not
consulted); on a stored-AVAILABLE bike it succeeds, switching to
MAINTENANCE, and a second call switches back to AVAILABLE. -/
theorem C9_toggle (orgId bikeId : Nat) (db : DB) (bike : Bike)
    (hf : db.bikes.find? (fun bk => decide (bk.id = bikeId)) = some bike)
    (horg : bike.organizationId = orgId) :
    (bike.status = .RENTED →
      toggleBikeMaintenance orgId bikeId db = .error .BIKE_RENTED) ∧
    (bike.status = .AVAILABLE →
      toggleBikeMaintenance orgId bikeId db
        = .ok (setBikeStatus db bikeId .MAINTENANCE, .MAINTENANCE) ∧
      (toggleBikeMaintenance orgId bikeId (setBikeStatus db bikeId .MAINTENANCE)).toOption.map
          (fun p => p.2) = some .AVAILABLE) := by
  constructor
  · intro hst
    unfold toggleBikeMaintenance
    simp only [hf]
    rw [if_neg (by simp [horg]), if_pos hst]
  · intro hst
    constructor
    · unfold toggleBikeMaintenance
      simp only [hf]
      rw [if_neg (by simp [horg]), if_neg (by simp [hst]),
        if_neg (by simp [hst])]
    · have hf2 : (setBikeStatus db bikeId .MAINTENANCE).bikes.find?
          (fun bk => decide (bk.id = bikeId)) = some { bike with status := .MAINTENANCE } :=
        find?_map_setStatus db.bikes bikeId .MAINTENANCE bike hf
      unfold toggleBikeMaintenance
      simp only [hf2]
      rw [if_neg (by simp [horg]), if_neg (by simp), if_pos (by simp)]
      rfl

def c9wDB : DB := ⟨[⟨1, 10, 500, .AVAILABLE, false⟩, ⟨2, 10, 500, .RENTED, false⟩], [], 0⟩

/-- Witness for C9 (amended): on a stored-AVAILABLE bike the toggle
succeeds (to MAINTENANCE), and on a stored-RENTED bike it is rejected with
BikeRented. -/
theorem C9_toggle_witness :
    toggleBikeMaintenance 10 1 c9wDB = .ok (setBikeStatus c9wDB 1 .MAINTENANCE, .MAINTENANCE) ∧
    toggleBikeMaintenance 10 2 c9wDB = .error .BIKE_RENTED :=
  ⟨((C9_toggle 10 1 c9wDB ⟨1, 10, 500, .AVAILABLE, false⟩ (by decide) (by decide)).2 rfl).1,
   (C9_toggle 10 2 c9wDB ⟨2, 10, 500, .RENTED, false⟩ (by decide) (by decide)).1 rfl⟩

def c10Bike : Bike := ⟨1, 10, 500, .RENTED, false⟩

def c10Booking : Booking :=
  ⟨102, 10, 1, "c", 0, 4 * MS_PER_DAY + (MS_PER_DAY - 1), 2500, 0, .ACTIVE, false, none, none⟩

def c10DB : DB := ⟨[c10Bike], [c10Booking], 300⟩

def c10Req : ReturnReq := ⟨none, none, none, none, none, none⟩

def exDB (r : Except ErrorCode (DB × Settlement)) : DB :=
  match r with
  | .ok p => p.1
  | .error _ => ⟨[], [], 0⟩

/-- The store after the first markReturned (returned Jan 8, day 7). -/
def c10After1 : DB := exDB (markReturned (7 * MS_PER_DAY + 3600000) 10 102 c10Req c10DB)

/-- C10: markReturned has no booking-status precondition — it succeeds on
every booking that resolves in the organization scope, including one
already RETURNED, recomputing overdue charges against the previously
rewritten end date and raising totalAmount again (a second call is not a
no-op), whereas bulkMarkReturned rejects bookings already RETURNED. -/
theorem C10_markReturned_no_precondition :
    (∀ (now orgId bookingId : Nat) (req : ReturnReq) (db : DB) (booking : Booking),
      findBooking db bookingId orgId = some booking →
      ∃ db' s, markReturned now orgId bookingId req db = .ok (db', s)) ∧
    (∀ (now orgId bookingId : Nat) (db : DB) (booking : Booking),
      findBooking db bookingId orgId = some booking → booking.status = .RETURNED →
      bulkMarkReturned now orgId [bookingId] db
        = (db, [], [(bookingId, "Booking already returned")])) ∧
    ((markReturned (7 * MS_PER_DAY + 3600000) 10 102 c10Req c10DB).toOption.map
        (fun p => (p.2.overdueDays, p.2.newTotal)) = some (3, 4000) ∧
     c10After1.bookings.map (fun b => (b.id, b.status, b.totalAmount, b.endDate))
       = [(102, .RETURNED, 4000, 7 * MS_PER_DAY + 3600000)] ∧
     (markReturned (9 * MS_PER_DAY + 3600000) 10 102 c10Req c10After1).toOption.map
        (fun p => (p.2.overdueDays, p.2.newTotal)) = some (2, 5000) ∧
     bulkMarkReturned (9 * MS_PER_DAY + 3600000) 10 [102] c10After1
       = (c10After1, [], [(102, "Booking already returned")])) := by
  refine ⟨?_, ?_, by decide⟩
  · intro now orgId bookingId req db booking hf
    exact ⟨_, _, markReturned_eq hf⟩
  · intro now orgId bookingId db booking hf hst
    unfold bulkMarkReturned
    rw [List.foldl_cons, List.foldl_nil]
    unfold bulkStep
    simp only [hf, if_pos hst, List.nil_append]

/-- Witness for C10: markReturned succeeds on the already-RETURNED booking
of the double-call scenario, and bulkMarkReturned rejects it. -/
theorem C10_markReturned_no_precondition_witness :
    (∃ db' s, markReturned (9 * MS_PER_DAY + 3600000) 10 102 c10Req c10After1
      = .ok (db', s)) ∧
    bulkMarkReturned (9 * MS_PER_DAY + 3600000) 10 [102] c10After1
      = (c10After1, [], [(102, "Booking already returned")]) :=
  ⟨C10_markReturned_no_precondition.1 (9 * MS_PER_DAY + 3600000) 10 102 c10Req c10After1
      ⟨102, 10, 1, "c", 0, 7 * MS_PER_DAY + 3600000, 4000, 0, .RETURNED, false, none,
        some (7 * MS_PER_DAY + 3600000)⟩ (by decide),
   C10_markReturned_no_precondition.2.1 (9 * MS_PER_DAY + 3600000) 10 102 c10After1
      ⟨102, 10, 1, "c", 0, 7 * MS_PER_DAY + 3600000, 4000, 0, .RETURNED, false, none,
        some (7 * MS_PER_DAY + 3600000)⟩ (by decide) (by decide)⟩

end VendorApp
